import Mathlib

/-!
# The translator of the glove → hand pipeline

A shallow embedding of `src/translator.cpp` / `src/translator.h`.

* The translator's own members (`mConnectionType`, the three data buffers, the user
  profile) are fields of `Translator`.
* Qt signal/slot connections made by `connect(...)` are counted per (signal, slot)
  pair: `connect` adds one connection, `disconnect(sender, signal, receiver, slot)`
  removes every connection of that pair.
* Signals emitted by the translator itself (`dataIsRead`, `loadingStoped`) are
  counted; their receivers live outside the translator.
* A signal of a collaborator (`dataIsRead`, `onReadyLoad`, `calibrated`) is a delivery of
  its own: it runs the connected slot (`convertData`, `stopCalibrate`) as a separate call.
* The collaborating classes whose sources are not part of `src/`
  (`FileActionPerformer`, `GloveInterface`, `HandInterface`, `GloveCalibrator`,
  `KalmanFilter`, `Map`) are parameters: their states are abstract types and their
  methods are the fields of `Collab`.  Every general theorem holds for all of them.
* C++ `int` values are `Int`; indexing a `QList` out of range (`at`, `operator[]`)
  is a fault, modelled by `none`.
-/

namespace Hand

/-- The enum `ConnectionType` of translator.h. -/
inductive ConnectionType where
  | noConnection
  | gloveToHand
  | actionToHand
  | calibrate
  deriving DecidableEq, Repr

/-- The constants of consts.h used by the translator (the header is not among the
sources, so they are parameters). -/
structure Consts where
  /-- Value of `HandConsts::numberOfMotors`. -/
  numberOfMotors : Nat
  /-- Value of `GloveConsts::numberOfSensors`. -/
  numberOfSensors : Nat
  /-- Value of `HandConsts::motorMinValue`. -/
  motorMinValue : Int
  /-- Value of `HandConsts::motorMaxValue`. -/
  motorMaxValue : Int
  deriving DecidableEq, Repr

/-! ## The user profile -/

/-- Modelled from the spec: class `User` (user.h is not among the sources).  Spec §4.4: it
stores the per-sensor calibrated ranges and the sensor→motor conformity; `addDOF`
appends a range entry and the position of an entry is the sensor index it is bound to. -/
structure User where
  /-- Calibrated ranges `(min, max)`, entry `i` belonging to sensor `i`. -/
  dofs : List (Int × Int)
  /-- Registered `(sensor, motor)` pairs, in registration order. -/
  conformity : List (Nat × Nat)
  deriving DecidableEq, Repr

/-- Modelled from the spec: `new User` holds no calibrated range and no conformity. -/
def User.new : User :=
  { dofs := [], conformity := [] }

/-- Modelled from the spec: `User::addDOF(min, max)` "appends a new calibrated range entry". -/
def User.addDOF (u : User) (min max : Int) : User :=
  { u with dofs := u.dofs ++ [(min, max)] }

/-- Modelled from the spec: `User::addSensorMotorConformity(sensor, motor)` "appends motor to
the sensor's motor set" (duplicates are kept). -/
def User.addSensorMotorConformity (u : User) (sensor motor : Nat) : User :=
  { u with conformity := u.conformity ++ [(sensor, motor)] }

/-- Modelled from the spec: `User::motorList(sensor)`, the motors registered for the sensor. -/
def User.motorList (u : User) (sensor : Nat) : List Nat :=
  (u.conformity.filter (fun p => p.1 == sensor)).map (fun p => p.2)

/-- Modelled from the spec: `User::sensorMin(i)`, the lower end of the range bound to sensor
`i` by position; there is no value when no entry has that position. -/
def User.sensorMin (u : User) (i : Nat) : Option Int :=
  (u.dofs[i]?).map (fun p => p.1)

/-- Modelled from the spec: `User::sensorMax(i)`, the upper end of the range bound to sensor
`i` by position. -/
def User.sensorMax (u : User) (i : Nat) : Option Int :=
  (u.dofs[i]?).map (fun p => p.2)

/-! ## Collaborators -/

/-- Methods of `FileActionPerformer` called by the translator, over an abstract state. -/
structure FileActionPerformerOps (F : Type) where
  isLoaded : F → Bool
  isSaved : F → Bool
  isFileCorrect : F → Bool
  isFileEnd : F → Bool
  startLoad : F → String → F
  stopLoad : F → F
  startSave : F → Int → Nat → String → F
  stopSave : F → F
  /-- The call `data()` returns a frame and may advance the reader. -/
  data : F → List Int × F
  writeData : F → List Int → F

/-- Methods of `GloveInterface` called by the translator. -/
structure GloveInterfaceOps (G : Type) where
  startSendingDatas : G → G
  stopSendingDatas : G → G
  gloveDatas : G → List Int

/-- Methods of `HandInterface` called by the translator. -/
structure HandInterfaceOps (H : Type) where
  startSendingDatas : H → H
  stopSendingDatas : H → H
  moveMotors : H → List Int → H

/-- Methods of `GloveCalibrator` called by the translator. -/
structure GloveCalibratorOps (C : Type) where
  startCalibrate : C → C
  stopCalibrate : C → C
  writeData : C → List Int → C
  minCalibratedList : C → List Int
  maxCalibratedList : C → List Int

/-- Methods of `KalmanFilter` called by the translator. -/
structure KalmanFilterOps (K : Type) where
  /-- Constructor `KalmanFilter(initialState)`. -/
  new : List Int → K
  correct : K → List Int → K
  getState : K → List Int

/-- All collaborators of the translator.  `map` is `Map::map` of map.h; it yields no
value when the call faults. -/
structure Collab (F H G C K : Type) where
  map : Int → Int → Int → Int → Int → Option Int
  file : FileActionPerformerOps F
  glove : GloveInterfaceOps G
  hand : HandInterfaceOps H
  calibrator : GloveCalibratorOps C
  filter : KalmanFilterOps K

/-! ## The translator -/

/-- The class `Translator` of translator.h. -/
structure Translator (F H G C K : Type) where
  mConnectionType : ConnectionType
  mConvertedDatas : List Int
  mSensorDatas : List Int
  mFiltredDatas : List Int
  mUser : User
  mFileActionPerformer : F
  mGloveCalibrator : C
  mGloveInterface : G
  mHandInterface : H
  mKalmanFilter : K
  /-- Number of connections `mGloveInterface.dataIsRead() → this.convertData()`. -/
  gloveSubscription : Nat
  /-- Number of connections `mFileActionPerformer.onReadyLoad() → this.convertData()`. -/
  fileSubscription : Nat
  /-- Number of connections `mGloveCalibrator.calibrated() → this.stopCalibrate()`. -/
  calibratedSubscription : Nat
  /-- Number of times the signal `dataIsRead()` was emitted. -/
  dataIsRead : Nat
  /-- Number of times the signal `loadingStoped()` was emitted. -/
  loadingStoped : Nat

section Operations

variable {F H G C K : Type}

/-- The constructor `Translator::Translator()`; the freshly built collaborators are given. -/
def Translator.new (E : Collab F H G C K) (c : Consts) (f : F) (cal : C) (g : G) (h : H) :
    Translator F H G C K :=
  let init := (List.range c.numberOfMotors).foldl
    (fun (p : User × List Int) i => (p.1.addSensorMotorConformity i i, 0 :: p.2))
    (User.new, [])
  let zeros := (List.range c.numberOfSensors).foldl (fun (l : List Int) _ => 0 :: l) []
  { mConnectionType := .noConnection
    mConvertedDatas := init.2
    mSensorDatas := zeros
    mFiltredDatas := zeros
    mUser := init.1
    mFileActionPerformer := f
    mGloveCalibrator := cal
    mGloveInterface := g
    mHandInterface := h
    mKalmanFilter := E.filter.new zeros
    gloveSubscription := 0
    fileSubscription := 0
    calibratedSubscription := 0
    dataIsRead := 0
    loadingStoped := 0 }

/-- The method `Translator::startConnection()`. -/
def Translator.startConnection (E : Collab F H G C K) (s : Translator F H G C K) :
    Translator F H G C K :=
  match s.mConnectionType with
  | .noConnection => s
  | .gloveToHand =>
    { s with
      mGloveInterface := E.glove.startSendingDatas s.mGloveInterface
      gloveSubscription := s.gloveSubscription + 1 }
  | .actionToHand =>
    { s with
      mHandInterface := E.hand.startSendingDatas s.mHandInterface
      fileSubscription := s.fileSubscription + 1 }
  | .calibrate =>
    { s with
      mGloveInterface := E.glove.startSendingDatas s.mGloveInterface
      mGloveCalibrator := E.calibrator.startCalibrate s.mGloveCalibrator
      gloveSubscription := s.gloveSubscription + 1
      calibratedSubscription := s.calibratedSubscription + 1 }

/-- The method `Translator::stopConnection()`. -/
def Translator.stopConnection (E : Collab F H G C K) (s : Translator F H G C K) :
    Translator F H G C K :=
  match s.mConnectionType with
  | .noConnection => s
  | .gloveToHand =>
    { s with
      mGloveInterface := E.glove.stopSendingDatas s.mGloveInterface
      gloveSubscription := 0
      mConnectionType := .noConnection }
  | .actionToHand =>
    { s with
      mHandInterface := E.hand.stopSendingDatas s.mHandInterface
      fileSubscription := 0
      mConnectionType := .noConnection }
  | .calibrate =>
    { s with
      mGloveInterface := E.glove.stopSendingDatas s.mGloveInterface
      gloveSubscription := 0
      calibratedSubscription := 0
      mConnectionType := .noConnection }

/-- The method `Translator::setConnectionType(type)`. -/
def Translator.setConnectionType (E : Collab F H G C K) (type : ConnectionType)
    (s : Translator F H G C K) : Translator F H G C K :=
  { Translator.stopConnection E s with mConnectionType := type }

/-- The method `Translator::stopLoadAction()`. -/
def Translator.stopLoadAction (E : Collab F H G C K) (s : Translator F H G C K) :
    Translator F H G C K :=
  if !E.file.isLoaded s.mFileActionPerformer then s
  else
    let s1 := Translator.setConnectionType E .noConnection s
    { s1 with
      mFileActionPerformer := E.file.stopLoad s1.mFileActionPerformer
      loadingStoped := s1.loadingStoped + 1 }

/-- The method `Translator::startLoadAction(fileName)`. -/
def Translator.startLoadAction (E : Collab F H G C K) (fileName : String)
    (s : Translator F H G C K) : Translator F H G C K :=
  let s1 := if E.file.isLoaded s.mFileActionPerformer then Translator.stopLoadAction E s else s
  let s2 := Translator.setConnectionType E .actionToHand s1
  let s3 := { s2 with mFileActionPerformer := E.file.startLoad s2.mFileActionPerformer fileName }
  if E.file.isFileCorrect s3.mFileActionPerformer then Translator.startConnection E s3 else s3

/-- The method `Translator::stopSaveAction()`. -/
def Translator.stopSaveAction (E : Collab F H G C K) (s : Translator F H G C K) :
    Translator F H G C K :=
  let s1 := Translator.setConnectionType E .noConnection s
  { s1 with mFileActionPerformer := E.file.stopSave s1.mFileActionPerformer }

/-- The method `Translator::startSaveAction(fileName, freq)`. -/
def Translator.startSaveAction (E : Collab F H G C K) (c : Consts) (fileName : String)
    (freq : Int) (s : Translator F H G C K) : Translator F H G C K :=
  let s1 := if E.file.isSaved s.mFileActionPerformer then Translator.stopSaveAction E s else s
  let s2 := Translator.setConnectionType E .gloveToHand s1
  let s3 := Translator.startConnection E s2
  { s3 with
    mFileActionPerformer :=
      E.file.startSave s3.mFileActionPerformer freq c.numberOfSensors fileName }

/-- The method `Translator::startCalibrate()`. -/
def Translator.startCalibrate (E : Collab F H G C K) (s : Translator F H G C K) :
    Translator F H G C K :=
  Translator.startConnection E (Translator.setConnectionType E .calibrate s)

/-- The loop of `Translator::stopCalibrate()`: for `i` from `0` while
`i < numberOfSensors && i < maxList.size() && i < minList.size()`, call
`addDOF(minList.at(i), maxList.at(i))`.  The bound checks are monotone in `i`, so the
first failing check ends the additions. -/
def Translator.foldCalibration (c : Consts) (minList maxList : List Int) (u : User) : User :=
  (List.range c.numberOfSensors).foldl
    (fun u i =>
      match maxList[i]?, minList[i]? with
      | some mx, some mn => u.addDOF mn mx
      | _, _ => u)
    u

/-- The slot `Translator::stopCalibrate()`. -/
def Translator.stopCalibrate (E : Collab F H G C K) (c : Consts) (s : Translator F H G C K) :
    Translator F H G C K :=
  let maxList := E.calibrator.maxCalibratedList s.mGloveCalibrator
  let minList := E.calibrator.minCalibratedList s.mGloveCalibrator
  let s1 := { s with mUser := Translator.foldCalibration c minList maxList s.mUser }
  let s2 := { s1 with mGloveCalibrator := E.calibrator.stopCalibrate s1.mGloveCalibrator }
  Translator.stopConnection E s2

/-- The method `Translator::map(value, min, max)`: `Map::map` into the motor range, then the
two clamps. -/
def Translator.map (E : Collab F H G C K) (c : Consts) (value min max : Int) : Option Int := do
  let val ← E.map value min max c.motorMinValue c.motorMaxValue
  let val := if val > c.motorMaxValue then c.motorMaxValue else val
  let val := if val < c.motorMinValue then c.motorMinValue else val
  pure val

/-- The assignment `list[i] = v` of a `QList<int>`; a fault when `i` is out of range. -/
def assignAt (list : List Int) (i : Nat) (v : Int) : Option (List Int) :=
  if i < list.length then some (list.set i v) else none

/-- The loop `for (i = 0; i < n; i++) buffer[i] = data.at(i);` shared by
`saveConvertedData` and `saveSensorsData`. -/
def copyInto (n : Nat) (data buffer : List Int) : Option (List Int) :=
  (List.range n).foldlM (fun buf i => do
    let v ← data[i]?
    assignAt buf i v) buffer

/-- The method `Translator::saveConvertedData(data)`. -/
def Translator.saveConvertedData (c : Consts) (data : List Int) (s : Translator F H G C K) :
    Option (Translator F H G C K) := do
  let buf ← copyInto c.numberOfMotors data s.mConvertedDatas
  pure { s with mConvertedDatas := buf }

/-- The method `Translator::saveSensorsData(data)`. -/
def Translator.saveSensorsData (c : Consts) (data : List Int) (s : Translator F H G C K) :
    Option (Translator F H G C K) := do
  let buf ← copyInto c.numberOfSensors data s.mSensorDatas
  pure { s with mSensorDatas := buf }

/-- The slot `Translator::filterData()`. -/
def Translator.filterData (E : Collab F H G C K) (s : Translator F H G C K) :
    Translator F H G C K :=
  let k := E.filter.correct s.mKalmanFilter s.mSensorDatas
  { s with mKalmanFilter := k, mFiltredDatas := E.filter.getState k }

/-- The slot `Translator::sendDataToCalibrator()`. -/
def Translator.sendDataToCalibrator (E : Collab F H G C K) (s : Translator F H G C K) :
    Translator F H G C K :=
  { s with mGloveCalibrator := E.calibrator.writeData s.mGloveCalibrator s.mFiltredDatas }

/-- The method `Translator::sendDataToHand()`. -/
def Translator.sendDataToHand (E : Collab F H G C K) (s : Translator F H G C K) :
    Translator F H G C K :=
  let s1 :=
    if E.file.isSaved s.mFileActionPerformer then
      { s with
        mFileActionPerformer := E.file.writeData s.mFileActionPerformer s.mConvertedDatas }
    else s
  { s1 with mHandInterface := E.hand.moveMotors s1.mHandInterface s1.mConvertedDatas }

/-- The right-hand side `map(mFiltredDatas[i], mUser->sensorMin(i), mUser->sensorMax(i))` of
the assignment in the mapping loop of `convertData`. -/
def Translator.mappedValue (E : Collab F H G C K) (c : Consts) (u : User) (filtred : List Int)
    (i : Nat) : Option Int := do
  let v ← filtred[i]?
  let mn ← u.sensorMin i
  let mx ← u.sensorMax i
  Translator.map E c v mn mx

/-- The inner loop of the mapping in `convertData`: for every `j` below `motorList.size()`,
`mConvertedDatas[motorList.at(j)] = map(mFiltredDatas[i], sensorMin(i), sensorMax(i))`. -/
def Translator.driveMotors (E : Collab F H G C K) (c : Consts) (u : User) (filtred : List Int)
    (i : Nat) (converted : List Int) : Option (List Int) :=
  (u.motorList i).foldlM (fun conv m => do
    let r ← Translator.mappedValue E c u filtred i
    assignAt conv m r) converted

/-- The mapping loop of `convertData` over the sensors `0 .. numberOfSensors - 1`. -/
def Translator.mapSensors (E : Collab F H G C K) (c : Consts) (u : User) (filtred : List Int)
    (converted : List Int) : Option (List Int) :=
  (List.range c.numberOfSensors).foldlM
    (fun conv i => Translator.driveMotors E c u filtred i conv) converted

/-- The slot `Translator::convertData()`, one tick of the pipeline. -/
def Translator.convertData (E : Collab F H G C K) (c : Consts) (s : Translator F H G C K) :
    Option (Translator F H G C K) :=
  if s.mConnectionType = .noConnection then some s
  else if s.mConnectionType = .actionToHand then
    let r := E.file.data s.mFileActionPerformer
    let temp := r.1
    let s1 := { s with mFileActionPerformer := r.2 }
    if !E.file.isFileCorrect s1.mFileActionPerformer
        || E.file.isFileEnd s1.mFileActionPerformer then
      some (Translator.stopLoadAction E s1)
    else do
      let s2 ← Translator.saveConvertedData c temp s1
      pure (Translator.sendDataToHand E s2)
  else do
    let s1 ← Translator.saveSensorsData c (E.glove.gloveDatas s.mGloveInterface) s
    let s2 := Translator.filterData E s1
    if s2.mConnectionType = .calibrate then
      pure (Translator.sendDataToCalibrator E s2)
    else
      let s3 := { s2 with dataIsRead := s2.dataIsRead + 1 }
      let conv ← Translator.mapSensors E c s3.mUser s3.mFiltredDatas s3.mConvertedDatas
      pure (Translator.sendDataToHand E { s3 with mConvertedDatas := conv })

/-! ## Sequences of calls -/

/-- The public operations of the translator and the tick slot. -/
inductive Op where
  | setConnectionType (type : ConnectionType)
  | startConnection
  | stopConnection
  | startLoadAction (fileName : String)
  | stopLoadAction
  | startSaveAction (fileName : String) (freq : Int)
  | stopSaveAction
  | startCalibrate
  | stopCalibrate
  | convertData

/-- One call of an operation; only the tick can fault. -/
def Translator.step (E : Collab F H G C K) (c : Consts) (op : Op) (s : Translator F H G C K) :
    Option (Translator F H G C K) :=
  match op with
  | .setConnectionType type => some (Translator.setConnectionType E type s)
  | .startConnection => some (Translator.startConnection E s)
  | .stopConnection => some (Translator.stopConnection E s)
  | .startLoadAction fileName => some (Translator.startLoadAction E fileName s)
  | .stopLoadAction => some (Translator.stopLoadAction E s)
  | .startSaveAction fileName freq => some (Translator.startSaveAction E c fileName freq s)
  | .stopSaveAction => some (Translator.stopSaveAction E s)
  | .startCalibrate => some (Translator.startCalibrate E s)
  | .stopCalibrate => some (Translator.stopCalibrate E c s)
  | .convertData => Translator.convertData E c s

/-- The states reachable from a freshly constructed translator: by the operations, by
ticks, and by the collaborators changing on their own between two calls (the glove
delivering a sample, the file reader advancing, ...). -/
inductive Reachable (E : Collab F H G C K) (c : Consts) : Translator F H G C K → Prop where
  | fresh (f : F) (cal : C) (g : G) (h : H) : Reachable E c (Translator.new E c f cal g h)
  | call (op : Op) (s t : Translator F H G C K) :
      Reachable E c s → Translator.step E c op s = some t → Reachable E c t
  | world (s : Translator F H G C K) (f : F) (cal : C) (g : G) (h : H) :
      Reachable E c s →
      Reachable E c
        { s with
          mFileActionPerformer := f
          mGloveCalibrator := cal
          mGloveInterface := g
          mHandInterface := h }

end Operations

/-! ## Concrete collaborators

Simple stand-ins for the absent classes, used to run the translator on concrete inputs. -/

/-- Modelled from the spec: `Map::map` of map.h (not among the sources), the linear
interpolation `dstMin + (value-srcMin)*(dstMax-dstMin)/(srcMax-srcMin)` of §4.5 on
C++ integers: the division truncates and faults on a zero divisor. -/
def Map.map (value srcMin srcMax dstMin dstMax : Int) : Option Int :=
  if srcMax - srcMin = 0 then none
  else some (dstMin + Int.tdiv ((value - srcMin) * (dstMax - dstMin)) (srcMax - srcMin))

/-- Modelled from the spec: the state of a `FileActionPerformer` (fileActionPerformer.h is not
among the sources), a replay source (§6: open, well-formed, at end, next frame) and a
recorder sink (§6: open, write, close). -/
structure SimFile where
  loaded : Bool
  saved : Bool
  correct : Bool
  atEnd : Bool
  /-- Frames of the file that have not been read yet. -/
  frames : List (List Int)
  /-- Frames written by the recorder. -/
  written : List (List Int)
  deriving DecidableEq, Repr

/-- Modelled from the spec: the methods of the file performer on `SimFile`. -/
def simFile : FileActionPerformerOps SimFile where
  isLoaded f := f.loaded
  isSaved f := f.saved
  isFileCorrect f := f.correct
  isFileEnd f := f.atEnd
  startLoad f _ := { f with loaded := true, atEnd := false }
  stopLoad f := { f with loaded := false }
  startSave f _ _ _ := { f with saved := true }
  stopSave f := { f with saved := false }
  data f :=
    match f.frames with
    | [] => ([], { f with atEnd := true })
    | frame :: rest => (frame, { f with frames := rest })
  writeData f v := { f with written := f.written ++ [v] }

/-- Modelled from the spec: the state of a `GloveInterface` (§6 Glove Source): whether it streams
and the current sample. -/
structure SimGlove where
  sending : Bool
  sample : List Int
  deriving DecidableEq, Repr

/-- Modelled from the spec: the methods of the glove source on `SimGlove`. -/
def simGlove : GloveInterfaceOps SimGlove where
  startSendingDatas g := { g with sending := true }
  stopSendingDatas g := { g with sending := false }
  gloveDatas g := g.sample

/-- Modelled from the spec: the state of a `HandInterface` (§6 Hand Sink): whether it accepts
commands and the command vectors it was sent. -/
structure SimHand where
  accepting : Bool
  moved : List (List Int)
  deriving DecidableEq, Repr

/-- Modelled from the spec: the methods of the hand sink on `SimHand`. -/
def simHand : HandInterfaceOps SimHand where
  startSendingDatas h := { h with accepting := true }
  stopSendingDatas h := { h with accepting := false }
  moveMotors h v := { h with moved := h.moved ++ [v] }

/-- Modelled from the spec: the state of a `GloveCalibrator` (§4.3): the accumulated minima
and maxima and the vectors it was given. -/
structure SimCalibrator where
  mins : List Int
  maxs : List Int
  seen : List (List Int)
  deriving DecidableEq, Repr

/-- Modelled from the spec: the methods of the calibrator on `SimCalibrator`; `writeData`
keeps the running minimum and maximum per sensor (§4.3). -/
def simCalibrator : GloveCalibratorOps SimCalibrator where
  startCalibrate _ := { mins := [], maxs := [], seen := [] }
  stopCalibrate cal := cal
  writeData cal v :=
    { mins := if cal.seen.isEmpty then v else List.zipWith min cal.mins v
      maxs := if cal.seen.isEmpty then v else List.zipWith max cal.maxs v
      seen := cal.seen ++ [v] }
  minCalibratedList cal := cal.mins
  maxCalibratedList cal := cal.maxs

/-- Modelled from the spec: a `KalmanFilter` (§4.2) that has converged: its estimate is
the last measurement. -/
def simFilter : KalmanFilterOps (List Int) where
  new init := init
  correct _ raw := raw
  getState k := k

/-- The concrete collaborators. -/
def sim : Collab SimFile SimHand SimGlove SimCalibrator (List Int) where
  map := Map.map
  file := simFile
  glove := simGlove
  hand := simHand
  calibrator := simCalibrator
  filter := simFilter

/-- Two sensors, two motors, motor range `[0, 255]`. -/
def consts2 : Consts :=
  { numberOfMotors := 2, numberOfSensors := 2, motorMinValue := 0, motorMaxValue := 255 }

/-- A freshly constructed translator over the concrete collaborators; the file on disk
holds `frames`, the glove's current sample is `sample`. -/
def fresh2 (frames : List (List Int)) (sample : List Int) :
    Translator SimFile SimHand SimGlove SimCalibrator (List Int) :=
  Translator.new sim consts2
    { loaded := false, saved := false, correct := true, atEnd := false
      frames := frames, written := [] }
    { mins := [], maxs := [], seen := [] }
    { sending := false, sample := sample }
    { accepting := false, moved := [] }

/-! ## Predicates and concrete states used by the theorems -/

section Predicates

variable {F H G C K : Type}

/-- The wiring invariant: the glove subscription is connected only in the modes
`gloveToHand` and `calibrate`, the file subscription only in the mode `actionToHand`. -/
def Translator.Exclusive (s : Translator F H G C K) : Prop :=
  (0 < s.gloveSubscription →
      s.mConnectionType = .gloveToHand ∨ s.mConnectionType = .calibrate) ∧
    (0 < s.fileSubscription → s.mConnectionType = .actionToHand)

/-- Two states with the same mode and the same two source subscriptions. -/
def Translator.SameWiring (s t : Translator F H G C K) : Prop :=
  t.mConnectionType = s.mConnectionType ∧ t.gloveSubscription = s.gloveSubscription ∧
    t.fileSubscription = s.fileSubscription

end Predicates

/-- The concrete translator after `startLoadAction` on a file of two frames: Replay. -/
def replay2 : Translator SimFile SimHand SimGlove SimCalibrator (List Int) :=
  Translator.startLoadAction sim "replay.txt" (fresh2 [[10, 20], [30, 40]] [0, 0])

/-- The concrete translator in the mode `actionToHand` without a loaded replay: a fresh
translator after `setConnectionType(actionToHand)` and `startConnection()`; the file
source has no frame to give. -/
def unloaded2 : Translator SimFile SimHand SimGlove SimCalibrator (List Int) :=
  Translator.startConnection sim (Translator.setConnectionType sim .actionToHand (fresh2 [] [0, 0]))

section Shape

variable {F H G C K : Type}

/-- The sizes fixed by the constructor: one raw value per sensor, one command per motor,
and the one-to-one conformity on the motors. -/
def Translator.WellFormed (c : Consts) (s : Translator F H G C K) : Prop :=
  s.mSensorDatas.length = c.numberOfSensors ∧
    s.mConvertedDatas.length = c.numberOfMotors ∧
    s.mUser.conformity = (List.range c.numberOfMotors).map (fun i => (i, i))

/-- Two states whose buffers have the same sizes and whose conformity is the same. -/
def Translator.SameShape (s t : Translator F H G C K) : Prop :=
  t.mSensorDatas.length = s.mSensorDatas.length ∧
    t.mConvertedDatas.length = s.mConvertedDatas.length ∧
    t.mUser.conformity = s.mUser.conformity

end Shape

/-- The concrete translator in the mode `calibrate`, the glove holding the sample
`[12, 34]`. -/
def calibrating2 : Translator SimFile SimHand SimGlove SimCalibrator (List Int) :=
  Translator.startCalibrate sim (fresh2 [] [12, 34])

/-- The concrete translator in the mode `gloveToHand` after a calibration that recorded
`[0, 100]` for both sensors, the glove holding the sample `[50, 300]`. -/
def live2 : Translator SimFile SimHand SimGlove SimCalibrator (List Int) :=
  Translator.startSaveAction sim consts2 "record.txt" 30
    (Translator.stopCalibrate sim consts2
      { fresh2 [] [50, 300] with
        mGloveCalibrator := { mins := [0, 0], maxs := [100, 100], seen := [] } })

/-- The concrete translator replaying a file whose only frame is `[300, -5]`. -/
def replayWild2 : Translator SimFile SimHand SimGlove SimCalibrator (List Int) :=
  Translator.startLoadAction sim "replay.txt" (fresh2 [[300, -5]] [0, 0])

/-! ## Range mapping -/

section RangeMapping

variable {F H G C K : Type}

/-- The two clamps of `Translator::map` put any integer into the motor range. -/
theorem clamp_bounds (c : Consts) (x : Int) (hrange : c.motorMinValue ≤ c.motorMaxValue) :
    c.motorMinValue ≤
        (if (if x > c.motorMaxValue then c.motorMaxValue else x) < c.motorMinValue
          then c.motorMinValue else (if x > c.motorMaxValue then c.motorMaxValue else x)) ∧
      (if (if x > c.motorMaxValue then c.motorMaxValue else x) < c.motorMinValue
          then c.motorMinValue else (if x > c.motorMaxValue then c.motorMaxValue else x)) ≤
        c.motorMaxValue := by
  split_ifs <;> constructor <;> omega

/-- Whenever `Translator::map` returns, the result is within the motor range. -/
theorem map_in_range (E : Collab F H G C K) (c : Consts) (value min max r : Int)
    (hrange : c.motorMinValue ≤ c.motorMaxValue)
    (hr : Translator.map E c value min max = some r) :
    c.motorMinValue ≤ r ∧ r ≤ c.motorMaxValue := by
  unfold Translator.map at hr
  cases hx : E.map value min max c.motorMinValue c.motorMaxValue with
  | none => simp [hx] at hr
  | some x =>
    simp only [hx, Option.bind_eq_bind, Option.some_bind, Option.pure_def,
      Option.some.injEq] at hr
    rw [← hr]
    exact clamp_bounds c x hrange

/-- C1: `Translator::map` is clamp-safe.  For every value, min and max with `min < max`, and
whatever integer `x` the call `Map::map(value, min, max, motorMinValue, motorMaxValue)`
returns, `Translator::map(value, min, max)` returns a result `r` with
`motorMinValue ≤ r ≤ motorMaxValue` (given `motorMinValue ≤ motorMaxValue`), also for
values outside `[min, max]`. -/
theorem map_clamp_safe (E : Collab F H G C K) (c : Consts) (value min max x : Int)
    (hrange : c.motorMinValue ≤ c.motorMaxValue) (_hlt : min < max)
    (hx : E.map value min max c.motorMinValue c.motorMaxValue = some x) :
    ∃ r, Translator.map E c value min max = some r ∧
      c.motorMinValue ≤ r ∧ r ≤ c.motorMaxValue := by
  have hret : ∃ r, Translator.map E c value min max = some r := by
    unfold Translator.map
    simp [hx]
  obtain ⟨r, hr⟩ := hret
  exact ⟨r, hr, map_in_range E c value min max r hrange hr⟩

/-- Witness of C1: the value 300 lies outside the calibrated range `[0, 100]`; the
interpolation gives 765 and the translator returns a value within `[0, 255]`. -/
theorem map_clamp_safe_witness :
    (consts2.motorMinValue ≤ consts2.motorMaxValue ∧ (0 : Int) < 100 ∧
      sim.map 300 0 100 consts2.motorMinValue consts2.motorMaxValue = some 765) ∧
    ∃ r, Translator.map sim consts2 300 0 100 = some r ∧
      consts2.motorMinValue ≤ r ∧ r ≤ consts2.motorMaxValue :=
  ⟨⟨by decide, by decide, by decide⟩,
    map_clamp_safe sim consts2 300 0 100 765 (by decide) (by decide) (by decide)⟩

end RangeMapping

/-! ## Mode exclusivity -/

section Exclusivity

variable {F H G C K : Type}

theorem exclusive_of_sameWiring {s t : Translator F H G C K} (h : Translator.SameWiring s t)
    (hs : s.Exclusive) : t.Exclusive := by
  obtain ⟨h1, h2, h3⟩ := h
  unfold Translator.Exclusive at *
  rw [h1, h2, h3]
  exact hs

theorem exclusive_new (E : Collab F H G C K) (c : Consts) (f : F) (cal : C) (g : G) (h : H) :
    (Translator.new E c f cal g h).Exclusive := by
  simp [Translator.Exclusive, Translator.new]

theorem exclusive_startConnection (E : Collab F H G C K) (s : Translator F H G C K)
    (hs : s.Exclusive) : (Translator.startConnection E s).Exclusive := by
  unfold Translator.Exclusive at *
  unfold Translator.startConnection
  split <;> simp_all

/-- After `stopConnection` in a state satisfying the invariant nothing is subscribed. -/
theorem stopConnection_quiet (E : Collab F H G C K) (s : Translator F H G C K)
    (hs : s.Exclusive) :
    (Translator.stopConnection E s).mConnectionType = .noConnection ∧
      (Translator.stopConnection E s).gloveSubscription = 0 ∧
      (Translator.stopConnection E s).fileSubscription = 0 := by
  unfold Translator.Exclusive at hs
  unfold Translator.stopConnection
  obtain ⟨hg, hf⟩ := hs
  split <;> rename_i hm <;> simp_all

theorem exclusive_stopConnection (E : Collab F H G C K) (s : Translator F H G C K)
    (hs : s.Exclusive) : (Translator.stopConnection E s).Exclusive := by
  obtain ⟨_, h2, h3⟩ := stopConnection_quiet E s hs
  simp [Translator.Exclusive, h2, h3]

/-- After `setConnectionType` in a state satisfying the invariant the mode is the
requested one and nothing is subscribed. -/
theorem setConnectionType_quiet (E : Collab F H G C K) (type : ConnectionType)
    (s : Translator F H G C K) (hs : s.Exclusive) :
    (Translator.setConnectionType E type s).mConnectionType = type ∧
      (Translator.setConnectionType E type s).gloveSubscription = 0 ∧
      (Translator.setConnectionType E type s).fileSubscription = 0 := by
  obtain ⟨_, h2, h3⟩ := stopConnection_quiet E s hs
  exact ⟨rfl, h2, h3⟩

theorem exclusive_setConnectionType (E : Collab F H G C K) (type : ConnectionType)
    (s : Translator F H G C K) (hs : s.Exclusive) :
    (Translator.setConnectionType E type s).Exclusive := by
  obtain ⟨_, h2, h3⟩ := setConnectionType_quiet E type s hs
  simp [Translator.Exclusive, h2, h3]

theorem exclusive_stopLoadAction (E : Collab F H G C K) (s : Translator F H G C K)
    (hs : s.Exclusive) : (Translator.stopLoadAction E s).Exclusive := by
  unfold Translator.stopLoadAction
  split
  · exact hs
  · exact exclusive_of_sameWiring ⟨rfl, rfl, rfl⟩
      (exclusive_setConnectionType E .noConnection s hs)

theorem exclusive_startLoadAction (E : Collab F H G C K) (fileName : String)
    (s : Translator F H G C K) (hs : s.Exclusive) :
    (Translator.startLoadAction E fileName s).Exclusive := by
  unfold Translator.startLoadAction
  have h1 : (if E.file.isLoaded s.mFileActionPerformer then Translator.stopLoadAction E s
      else s).Exclusive := by
    split
    · exact exclusive_stopLoadAction E s hs
    · exact hs
  revert h1
  generalize (if E.file.isLoaded s.mFileActionPerformer then Translator.stopLoadAction E s
      else s) = s1
  intro h1
  have h2 := exclusive_setConnectionType E .actionToHand s1 h1
  dsimp only
  split
  · exact exclusive_startConnection E _ (exclusive_of_sameWiring ⟨rfl, rfl, rfl⟩ h2)
  · exact exclusive_of_sameWiring ⟨rfl, rfl, rfl⟩ h2

theorem exclusive_stopSaveAction (E : Collab F H G C K) (s : Translator F H G C K)
    (hs : s.Exclusive) : (Translator.stopSaveAction E s).Exclusive :=
  exclusive_of_sameWiring ⟨rfl, rfl, rfl⟩ (exclusive_setConnectionType E .noConnection s hs)

theorem exclusive_startSaveAction (E : Collab F H G C K) (c : Consts) (fileName : String)
    (freq : Int) (s : Translator F H G C K) (hs : s.Exclusive) :
    (Translator.startSaveAction E c fileName freq s).Exclusive := by
  unfold Translator.startSaveAction
  have h1 : (if E.file.isSaved s.mFileActionPerformer then Translator.stopSaveAction E s
      else s).Exclusive := by
    split
    · exact exclusive_stopSaveAction E s hs
    · exact hs
  exact exclusive_of_sameWiring ⟨rfl, rfl, rfl⟩
    (exclusive_startConnection E _ (exclusive_setConnectionType E .gloveToHand _ h1))

theorem exclusive_startCalibrate (E : Collab F H G C K) (s : Translator F H G C K)
    (hs : s.Exclusive) : (Translator.startCalibrate E s).Exclusive :=
  exclusive_startConnection E _ (exclusive_setConnectionType E .calibrate s hs)

theorem exclusive_stopCalibrate (E : Collab F H G C K) (c : Consts) (s : Translator F H G C K)
    (hs : s.Exclusive) : (Translator.stopCalibrate E c s).Exclusive := by
  unfold Translator.stopCalibrate
  exact exclusive_stopConnection E _ (exclusive_of_sameWiring ⟨rfl, rfl, rfl⟩ hs)

theorem sameWiring_saveConvertedData (c : Consts) (data : List Int)
    (s t : Translator F H G C K) (h : Translator.saveConvertedData c data s = some t) :
    Translator.SameWiring s t := by
  unfold Translator.saveConvertedData at h
  cases hb : copyInto c.numberOfMotors data s.mConvertedDatas with
  | none => simp [hb] at h
  | some buf =>
    simp [hb] at h
    subst h
    exact ⟨rfl, rfl, rfl⟩

theorem sameWiring_saveSensorsData (c : Consts) (data : List Int)
    (s t : Translator F H G C K) (h : Translator.saveSensorsData c data s = some t) :
    Translator.SameWiring s t := by
  unfold Translator.saveSensorsData at h
  cases hb : copyInto c.numberOfSensors data s.mSensorDatas with
  | none => simp [hb] at h
  | some buf =>
    simp [hb] at h
    subst h
    exact ⟨rfl, rfl, rfl⟩

theorem sameWiring_sendDataToHand (E : Collab F H G C K) (s : Translator F H G C K) :
    Translator.SameWiring s (Translator.sendDataToHand E s) := by
  unfold Translator.sendDataToHand
  split <;> exact ⟨rfl, rfl, rfl⟩

theorem exclusive_convertData (E : Collab F H G C K) (c : Consts) (s t : Translator F H G C K)
    (hs : s.Exclusive) (h : Translator.convertData E c s = some t) : t.Exclusive := by
  unfold Translator.convertData at h
  split at h
  · simp at h
    subst h
    exact hs
  · split at h
    · simp only [] at h
      split at h
      · simp at h
        subst h
        exact exclusive_stopLoadAction E _ (exclusive_of_sameWiring ⟨rfl, rfl, rfl⟩ hs)
      · cases h2 : Translator.saveConvertedData c (E.file.data s.mFileActionPerformer).1
            { s with mFileActionPerformer := (E.file.data s.mFileActionPerformer).2 } with
        | none => simp [h2] at h
        | some s2 =>
          simp [h2] at h
          subst h
          have w := sameWiring_saveConvertedData c _ _ _ h2
          exact exclusive_of_sameWiring (sameWiring_sendDataToHand E s2)
            (exclusive_of_sameWiring w (exclusive_of_sameWiring ⟨rfl, rfl, rfl⟩ hs))
    · cases h1 : Translator.saveSensorsData c (E.glove.gloveDatas s.mGloveInterface) s with
      | none => simp [h1] at h
      | some s1 =>
        have w1 := sameWiring_saveSensorsData c _ _ _ h1
        have e1 : s1.Exclusive := exclusive_of_sameWiring w1 hs
        simp only [h1, Option.bind_eq_bind, Option.some_bind] at h
        split at h
        · simp at h
          subst h
          exact exclusive_of_sameWiring ⟨rfl, rfl, rfl⟩ e1
        · cases h3 : Translator.mapSensors E c (Translator.filterData E s1).mUser
              (Translator.filterData E s1).mFiltredDatas
              (Translator.filterData E s1).mConvertedDatas with
          | none => simp [h3] at h
          | some conv =>
            simp [h3] at h
            subst h
            exact exclusive_of_sameWiring (sameWiring_sendDataToHand E _)
              (exclusive_of_sameWiring ⟨rfl, rfl, rfl⟩ e1)

/-- Every operation and every tick preserves the wiring invariant. -/
theorem exclusive_step (E : Collab F H G C K) (c : Consts) (op : Op)
    (s t : Translator F H G C K) (hs : s.Exclusive)
    (h : Translator.step E c op s = some t) : t.Exclusive := by
  cases op <;> simp only [Translator.step, Option.some.injEq] at h
  case convertData => exact exclusive_convertData E c s t hs h
  all_goals subst h
  · exact exclusive_setConnectionType E _ s hs
  · exact exclusive_startConnection E s hs
  · exact exclusive_stopConnection E s hs
  · exact exclusive_startLoadAction E _ s hs
  · exact exclusive_stopLoadAction E s hs
  · exact exclusive_startSaveAction E c _ _ s hs
  · exact exclusive_stopSaveAction E s hs
  · exact exclusive_startCalibrate E s hs
  · exact exclusive_stopCalibrate E c s hs

/-- The wiring invariant holds in every reachable state. -/
theorem exclusive_of_reachable (E : Collab F H G C K) (c : Consts) (s : Translator F H G C K)
    (hr : Reachable E c s) : s.Exclusive := by
  induction hr with
  | fresh f cal g h => exact exclusive_new E c f cal g h
  | call op s t _ hstep ih => exact exclusive_step E c op s t ih hstep
  | world s f cal g h _ ih => exact exclusive_of_sameWiring ⟨rfl, rfl, rfl⟩ ih

end Exclusivity

section Recording

variable {F H G C K : Type}

/-- The wiring after `startSaveAction`, from any state: the mode is `gloveToHand`, the glove
subscription is connected, and the file subscription is dropped when the mode was
`actionToHand` and untouched otherwise. -/
theorem startSaveAction_wiring (E : Collab F H G C K) (c : Consts) (fileName : String)
    (freq : Int) (s : Translator F H G C K) :
    (Translator.startSaveAction E c fileName freq s).mConnectionType = .gloveToHand ∧
      0 < (Translator.startSaveAction E c fileName freq s).gloveSubscription ∧
      (Translator.startSaveAction E c fileName freq s).fileSubscription =
        (if s.mConnectionType = .actionToHand then 0 else s.fileSubscription) := by
  cases hm : s.mConnectionType <;> cases hsv : E.file.isSaved s.mFileActionPerformer <;>
    simp [Translator.startSaveAction, Translator.stopSaveAction, Translator.setConnectionType,
      Translator.stopConnection, Translator.startConnection, hm, hsv]

/-- Calling `setConnectionType(gloveToHand)` and `startConnection()` in a state satisfying
the wiring invariant: the mode is `gloveToHand` and the file subscription is gone. -/
theorem startGloveToHand_wiring (E : Collab F H G C K) (s : Translator F H G C K)
    (hs : s.Exclusive) :
    (Translator.startConnection E
        (Translator.setConnectionType E .gloveToHand s)).mConnectionType = .gloveToHand ∧
      (Translator.startConnection E
        (Translator.setConnectionType E .gloveToHand s)).fileSubscription = 0 := by
  obtain ⟨h1, _, h3⟩ := setConnectionType_quiet E .gloveToHand s hs
  unfold Translator.startConnection
  simp [h1, h3]

end Recording

section ExclusivityClaim

variable {F H G C K : Type}

/-- C3: mode exclusivity as a reachable-state invariant.  In every state reachable from a
freshly constructed translator by any sequence of `setConnectionType`, `startConnection`,
`stopConnection`, `startLoadAction`, `stopLoadAction`, `startSaveAction`, `stopSaveAction`,
`startCalibrate`, `stopCalibrate` and `convertData` ticks, the glove subscription is
connected only if the mode is `gloveToHand` or `calibrate`, the file subscription is
connected only if the mode is `actionToHand`, so both are never connected together; and
after `startLoadAction` followed by a start of the glove-to-hand path (either
`setConnectionType(gloveToHand)` with `startConnection()`, or `startSaveAction`) the file
subscription is disconnected and the mode is `gloveToHand`. -/
theorem mode_exclusivity (E : Collab F H G C K) (c : Consts) (s : Translator F H G C K)
    (hr : Reachable E c s) :
    (0 < s.gloveSubscription →
        s.mConnectionType = .gloveToHand ∨ s.mConnectionType = .calibrate) ∧
      (0 < s.fileSubscription → s.mConnectionType = .actionToHand) ∧
      ¬ (0 < s.gloveSubscription ∧ 0 < s.fileSubscription) ∧
      (∀ fileName : String,
        (Translator.startConnection E (Translator.setConnectionType E .gloveToHand
            (Translator.startLoadAction E fileName s))).fileSubscription = 0 ∧
          (Translator.startConnection E (Translator.setConnectionType E .gloveToHand
            (Translator.startLoadAction E fileName s))).mConnectionType = .gloveToHand) ∧
      (∀ (fileName saveName : String) (freq : Int),
        (Translator.startSaveAction E c saveName freq
            (Translator.startLoadAction E fileName s)).fileSubscription = 0 ∧
          (Translator.startSaveAction E c saveName freq
            (Translator.startLoadAction E fileName s)).mConnectionType = .gloveToHand) := by
  have hs := exclusive_of_reachable E c s hr
  refine ⟨hs.1, hs.2, ?_, ?_, ?_⟩
  · rintro ⟨hg, hf⟩
    have h1 := hs.1 hg
    have h2 := hs.2 hf
    rw [h2] at h1
    rcases h1 with h1 | h1 <;> cases h1
  · intro fileName
    have hl := exclusive_startLoadAction E fileName s hs
    obtain ⟨h1, h2⟩ := startGloveToHand_wiring E _ hl
    exact ⟨h2, h1⟩
  · intro fileName saveName freq
    have hl := exclusive_startLoadAction E fileName s hs
    obtain ⟨h1, _, h3⟩ := startSaveAction_wiring E c saveName freq
      (Translator.startLoadAction E fileName s)
    refine ⟨?_, h1⟩
    rw [h3]
    split
    · rfl
    · by_contra hne
      have hpos : 0 < (Translator.startLoadAction E fileName s).fileSubscription := by omega
      exact absurd (hl.2 hpos) (by assumption)

/-- Witness of C3: the translator that has started a replay is reachable; there the file
subscription is the only one connected, and starting the glove-to-hand path after another
`startLoadAction` leaves the file subscription disconnected in the mode `gloveToHand`. -/
theorem mode_exclusivity_witness :
    Reachable sim consts2 replay2 ∧
      ((0 < replay2.gloveSubscription →
          replay2.mConnectionType = .gloveToHand ∨ replay2.mConnectionType = .calibrate) ∧
        (0 < replay2.fileSubscription → replay2.mConnectionType = .actionToHand) ∧
        ¬ (0 < replay2.gloveSubscription ∧ 0 < replay2.fileSubscription) ∧
        ((Translator.startConnection sim (Translator.setConnectionType sim .gloveToHand
            (Translator.startLoadAction sim "other.txt" replay2))).fileSubscription = 0 ∧
          (Translator.startConnection sim (Translator.setConnectionType sim .gloveToHand
            (Translator.startLoadAction sim "other.txt" replay2))).mConnectionType
              = .gloveToHand) ∧
        ((Translator.startSaveAction sim consts2 "record.txt" 30
            (Translator.startLoadAction sim "other.txt" replay2)).fileSubscription = 0 ∧
          (Translator.startSaveAction sim consts2 "record.txt" 30
            (Translator.startLoadAction sim "other.txt" replay2)).mConnectionType
              = .gloveToHand)) :=
  ⟨Reachable.call (.startLoadAction "replay.txt") _ _ (Reachable.fresh _ _ _ _) rfl,
    (mode_exclusivity sim consts2 replay2
      (Reachable.call (.startLoadAction "replay.txt") _ _ (Reachable.fresh _ _ _ _) rfl)).1,
    (mode_exclusivity sim consts2 replay2
      (Reachable.call (.startLoadAction "replay.txt") _ _ (Reachable.fresh _ _ _ _) rfl)).2.1,
    (mode_exclusivity sim consts2 replay2
      (Reachable.call (.startLoadAction "replay.txt") _ _ (Reachable.fresh _ _ _ _) rfl)).2.2.1,
    (mode_exclusivity sim consts2 replay2
      (Reachable.call (.startLoadAction "replay.txt") _ _ (Reachable.fresh _ _ _ _) rfl)).2.2.2.1
        "other.txt",
    (mode_exclusivity sim consts2 replay2
      (Reachable.call (.startLoadAction "replay.txt") _ _ (Reachable.fresh _ _ _ _)
        rfl)).2.2.2.2 "other.txt" "record.txt" 30⟩

end ExclusivityClaim

section RecordingClaim

variable {F H G C K : Type}

/-- C5 (amended): `startSaveAction(fileName, freq)` always ends in the mode `gloveToHand`
with the glove subscription connected.  From `gloveToHand` the mode is thereby unchanged
and the file subscription is untouched; from `actionToHand` (Replay) the mode changes to
`gloveToHand` and the file subscription is disconnected: the recording replaces the
running replay. -/
theorem startSaveAction_enters_gloveToHand (E : Collab F H G C K) (c : Consts)
    (fileName : String) (freq : Int) (s : Translator F H G C K) :
    (Translator.startSaveAction E c fileName freq s).mConnectionType = .gloveToHand ∧
      0 < (Translator.startSaveAction E c fileName freq s).gloveSubscription ∧
      (s.mConnectionType = .gloveToHand →
        (Translator.startSaveAction E c fileName freq s).mConnectionType = s.mConnectionType ∧
        (Translator.startSaveAction E c fileName freq s).fileSubscription
          = s.fileSubscription) ∧
      (s.mConnectionType = .actionToHand →
        (Translator.startSaveAction E c fileName freq s).mConnectionType ≠ s.mConnectionType ∧
        (Translator.startSaveAction E c fileName freq s).fileSubscription = 0) := by
  obtain ⟨h1, h2, h3⟩ := startSaveAction_wiring E c fileName freq s
  refine ⟨h1, h2, ?_, ?_⟩
  · intro hm
    rw [h1, h3, hm]
    simp
  · intro hm
    rw [h1, h3, hm]
    simp

/-- C5 fails as stated: in the Replay state `replay2` (mode `actionToHand`, file
subscription connected) `startSaveAction` changes the mode to `gloveToHand` and
disconnects the file subscription. -/
theorem startSaveAction_stops_replay :
    replay2.mConnectionType = .actionToHand ∧ replay2.fileSubscription = 1 ∧
      (Translator.startSaveAction sim consts2 "record.txt" 30 replay2).mConnectionType
        = .gloveToHand ∧
      (Translator.startSaveAction sim consts2 "record.txt" 30 replay2).fileSubscription = 0 ∧
      ¬ ((Translator.startSaveAction sim consts2 "record.txt" 30 replay2).mConnectionType
          = replay2.mConnectionType ∧
        (Translator.startSaveAction sim consts2 "record.txt" 30 replay2).fileSubscription
          = replay2.fileSubscription) := by
  decide

end RecordingClaim

/-! ## Stopping -/

section Stopping

variable {F H G C K : Type}

/-- With no replay loaded, `stopLoadAction()` returns the state as it is; in particular
no `loadingStoped` signal is emitted. -/
theorem stopLoadAction_not_loaded (E : Collab F H G C K) (s : Translator F H G C K)
    (h : E.file.isLoaded s.mFileActionPerformer = false) :
    Translator.stopLoadAction E s = s := by
  unfold Translator.stopLoadAction
  simp [h]

/-- With a replay loaded, `stopLoadAction()` in the mode `actionToHand` ends the replay. -/
theorem stopLoadAction_loaded (E : Collab F H G C K) (s : Translator F H G C K)
    (hm : s.mConnectionType = .actionToHand)
    (h : E.file.isLoaded s.mFileActionPerformer = true) :
    Translator.stopLoadAction E s =
      { s with
        mConnectionType := .noConnection
        fileSubscription := 0
        mHandInterface := E.hand.stopSendingDatas s.mHandInterface
        mFileActionPerformer := E.file.stopLoad s.mFileActionPerformer
        loadingStoped := s.loadingStoped + 1 } := by
  unfold Translator.stopLoadAction Translator.setConnectionType Translator.stopConnection
  simp [h, hm]

/-- C6 (failing input): in the Replay state `replay2` no recording is active, yet
`stopSaveAction()` changes the mode from `actionToHand` to `noConnection` and disconnects
the file subscription, while the replay stays loaded and no `loadingStoped` is emitted. -/
theorem stopSaveAction_inactive_not_noop :
    sim.file.isSaved replay2.mFileActionPerformer = false ∧
      replay2.mConnectionType = .actionToHand ∧ replay2.fileSubscription = 1 ∧
      (Translator.stopSaveAction sim replay2).mConnectionType = .noConnection ∧
      (Translator.stopSaveAction sim replay2).fileSubscription = 0 ∧
      sim.file.isLoaded (Translator.stopSaveAction sim replay2).mFileActionPerformer = true ∧
      (Translator.stopSaveAction sim replay2).loadingStoped = replay2.loadingStoped := by
  decide

/-- Whatever the recorder reports, `stopSaveAction()` leaves the mode `noConnection`. -/
theorem stopSaveAction_mode (E : Collab F H G C K) (s : Translator F H G C K) :
    (Translator.stopSaveAction E s).mConnectionType = .noConnection := by
  simp [Translator.stopSaveAction, Translator.setConnectionType]

/-- C4 (amended): in the mode `actionToHand`, when after `data()` the file source reports a
format error or end-of-data, the tick returns, and the frame read is neither stored in
the motor command vector nor passed to `moveMotors` or to the recorder's `writeData`.  If
the file performer reports a loaded replay (`isLoaded()`), the mode becomes
`noConnection`, the file subscription is dropped and `loadingStoped` is emitted exactly
once; the hand only receives `stopSendingDatas`, the file performer only `stopLoad`.  If
it reports none, the guard of `stopLoadAction` returns at once: nothing but the file
reader changes. -/
theorem replay_tick_stops (E : Collab F H G C K) (c : Consts) (s : Translator F H G C K)
    (hmode : s.mConnectionType = .actionToHand)
    (hbad : E.file.isFileCorrect (E.file.data s.mFileActionPerformer).2 = false ∨
      E.file.isFileEnd (E.file.data s.mFileActionPerformer).2 = true) :
    ∃ t, Translator.convertData E c s = some t ∧
      t.mConvertedDatas = s.mConvertedDatas ∧
      (E.file.isLoaded (E.file.data s.mFileActionPerformer).2 = true →
        t =
          { s with
            mConnectionType := .noConnection
            fileSubscription := 0
            mHandInterface := E.hand.stopSendingDatas s.mHandInterface
            mFileActionPerformer := E.file.stopLoad (E.file.data s.mFileActionPerformer).2
            loadingStoped := s.loadingStoped + 1 }) ∧
      (E.file.isLoaded (E.file.data s.mFileActionPerformer).2 = false →
        t = { s with mFileActionPerformer := (E.file.data s.mFileActionPerformer).2 }) := by
  have hcond : (!E.file.isFileCorrect (E.file.data s.mFileActionPerformer).2
      || E.file.isFileEnd (E.file.data s.mFileActionPerformer).2) = true := by
    rcases hbad with h | h <;> simp [h]
  have hyes := stopLoadAction_loaded E
    { s with mFileActionPerformer := (E.file.data s.mFileActionPerformer).2 } hmode
  have hno := stopLoadAction_not_loaded E
    { s with mFileActionPerformer := (E.file.data s.mFileActionPerformer).2 }
  refine ⟨Translator.stopLoadAction E
    { s with mFileActionPerformer := (E.file.data s.mFileActionPerformer).2 }, ?_, ?_, ?_, ?_⟩
  · unfold Translator.convertData
    simp [hmode, hcond]
  · cases hl : E.file.isLoaded (E.file.data s.mFileActionPerformer).2
    · rw [hno hl]
    · rw [hyes hl]
  · intro hl
    rw [hyes hl]
  · intro hl
    rw [hno hl]

/-- Witness of C4: the Replay state `replay2` after its two frames were consumed; the
third tick finds the end of the file. -/
theorem replay_tick_stops_witness :
    (replay2.mConnectionType = .actionToHand ∧
      (sim.file.isFileCorrect (sim.file.data
          { replay2.mFileActionPerformer with frames := [] }).2 = false ∨
        sim.file.isFileEnd (sim.file.data
          { replay2.mFileActionPerformer with frames := [] }).2 = true)) ∧
    ∃ t, Translator.convertData sim consts2
        { replay2 with mFileActionPerformer :=
            { replay2.mFileActionPerformer with frames := [] } } = some t ∧
      t.mConvertedDatas = replay2.mConvertedDatas ∧
      (sim.file.isLoaded (sim.file.data
          { replay2.mFileActionPerformer with frames := [] }).2 = true →
        t =
          { replay2 with
            mConnectionType := .noConnection
            fileSubscription := 0
            mHandInterface := sim.hand.stopSendingDatas replay2.mHandInterface
            mFileActionPerformer := sim.file.stopLoad (sim.file.data
              { replay2.mFileActionPerformer with frames := [] }).2
            loadingStoped := replay2.loadingStoped + 1 }) ∧
      (sim.file.isLoaded (sim.file.data
          { replay2.mFileActionPerformer with frames := [] }).2 = false →
        t = { replay2 with mFileActionPerformer := (sim.file.data
          { replay2.mFileActionPerformer with frames := [] }).2 }) :=
  ⟨⟨by decide, Or.inr (by decide)⟩,
    replay_tick_stops sim consts2
      { replay2 with mFileActionPerformer :=
          { replay2.mFileActionPerformer with frames := [] } }
      (by decide) (Or.inr (by decide))⟩

/-- C4 fails as stated: `unloaded2` is in the mode `actionToHand`, the tick finds the file
at its end, and afterwards the mode is still `actionToHand` and no `loadingStoped` signal
was emitted. -/
theorem replay_tick_unloaded_keeps_mode :
    unloaded2.mConnectionType = .actionToHand ∧
      sim.file.isFileEnd (sim.file.data unloaded2.mFileActionPerformer).2 = true ∧
      (Translator.convertData sim consts2 unloaded2).map (fun t => t.mConnectionType)
        = some .actionToHand ∧
      (Translator.convertData sim consts2 unloaded2).map (fun t => t.loadingStoped)
        = some 0 := by
  decide

end Stopping

/-! ## Degenerate calibrated range -/

section Degenerate

variable {F H G C K : Type}

/-- There is no guard in `Translator::map`: when `Map::map` faults on a range, so does it. -/
theorem map_unguarded (E : Collab F H G C K) (c : Consts) (value min max : Int)
    (h : E.map value min max c.motorMinValue c.motorMaxValue = none) :
    Translator.map E c value min max = none := by
  unfold Translator.map
  simp [h]

/-- With the interpolation of the spec, every degenerate range makes the mapping divide by
zero. -/
theorem map_degenerate_faults (c : Consts) (value m : Int) :
    Translator.map sim c value m m = none := by
  apply map_unguarded
  simp [sim, Map.map]

end Degenerate

/-! ## Calibration fold -/

section Calibration

variable {F H G C K : Type}

/-- Entry `n` of the zipped calibrator lists, in terms of the two lists. -/
theorem zip_getElem? (minList maxList : List Int) (n : Nat) :
    (minList.zip maxList)[n]? =
      match maxList[n]?, minList[n]? with
      | some mx, some mn => some (mn, mx)
      | _, _ => none := by
  rw [List.zip_eq_zipWith, List.getElem?_zipWith]
  cases minList[n]? <;> cases maxList[n]? <;> rfl

/-- The loop of `stopCalibrate` appends the first `n` pairs of the calibrator lists. -/
theorem foldCalibration_range (minList maxList : List Int) (u : User) (n : Nat) :
    (List.range n).foldl
        (fun u i =>
          match maxList[i]?, minList[i]? with
          | some mx, some mn => u.addDOF mn mx
          | _, _ => u)
        u
      = { u with dofs := u.dofs ++ (minList.zip maxList).take n } := by
  induction n with
  | zero => simp
  | succ n ih =>
    rw [List.range_succ, List.foldl_append, ih]
    simp only [List.foldl_cons, List.foldl_nil]
    rw [List.take_succ, zip_getElem?]
    cases maxList[n]? <;> cases minList[n]? <;> simp [User.addDOF]

theorem foldCalibration_dofs (c : Consts) (minList maxList : List Int) (u : User) :
    Translator.foldCalibration c minList maxList u
      = { u with dofs := u.dofs ++ (minList.zip maxList).take c.numberOfSensors } :=
  foldCalibration_range minList maxList u c.numberOfSensors

end Calibration

/-! ## Buffers -/

section Buffers

variable {F H G C K : Type}

/-- An assignment that succeeds keeps the length of the list. -/
theorem assignAt_length (list r : List Int) (i : Nat) (v : Int)
    (h : assignAt list i v = some r) : r.length = list.length := by
  unfold assignAt at h
  split at h
  · simp only [Option.some.injEq] at h
    rw [← h, List.length_set]
  · simp at h

/-- The copy loop returns when both lists have `n` entries; it overwrites the first `n`
entries of the buffer with those of the data and keeps the length. -/
theorem copyInto_spec (n : Nat) (data buffer : List Int) (hd : n ≤ data.length)
    (hb : n ≤ buffer.length) :
    ∃ r, copyInto n data buffer = some r ∧ r.length = buffer.length ∧
      ∀ k, r[k]? = if k < n then data[k]? else buffer[k]? := by
  induction n with
  | zero => exact ⟨buffer, by simp [copyInto], rfl, by simp⟩
  | succ n ih =>
    obtain ⟨r, hr, hlen, hget⟩ := ih (by omega) (by omega)
    have hdn : data[n]? = some (data[n]?.getD 0) := by
      rw [List.getElem?_eq_getElem (by omega)]
      rfl
    have hrn : n < r.length := by omega
    refine ⟨r.set n (data[n]?.getD 0), ?_, ?_, ?_⟩
    · unfold copyInto at hr ⊢
      rw [List.range_succ, List.foldlM_append, hr]
      simp only [Option.bind_eq_bind, Option.some_bind, List.foldlM_cons, List.foldlM_nil]
      rw [hdn]
      simp [assignAt, hrn]
    · rw [List.length_set, hlen]
    · intro k
      rw [List.getElem?_set]
      by_cases hk : n = k
      · subst hk
        simp [hrn, ← hdn]
      · simp only [hk, if_false]
        rw [hget k]
        by_cases h1 : k < n
        · have : k < n + 1 := by omega
          simp [h1, this]
        · have : ¬ k < n + 1 := by omega
          simp [h1, this]

/-- Whenever the copy loop returns, the length of the buffer is unchanged. -/
theorem copyInto_length (n : Nat) (data buffer r : List Int)
    (h : copyInto n data buffer = some r) : r.length = buffer.length := by
  unfold copyInto at h
  generalize List.range n = l at h
  induction l generalizing buffer with
  | nil =>
    simp only [List.foldlM_nil, Option.pure_def, Option.some.injEq] at h
    rw [h]
  | cons i l ih =>
    rw [List.foldlM_cons] at h
    cases hstep : (do
        let v ← data[i]?
        assignAt buffer i v) with
    | none =>
      rw [hstep] at h
      simp at h
    | some mid =>
      rw [hstep] at h
      simp only [Option.bind_eq_bind, Option.some_bind] at h
      rw [ih mid h]
      cases hv : data[i]? with
      | none => simp [hv] at hstep
      | some v =>
        simp only [hv, Option.bind_eq_bind, Option.some_bind] at hstep
        exact assignAt_length _ _ _ _ hstep

/-- Copying a vector of the size of the buffer replaces the buffer by the vector. -/
theorem copyInto_full (data buffer : List Int) (h : data.length = buffer.length) :
    copyInto buffer.length data buffer = some data := by
  obtain ⟨r, hr, hlen, hget⟩ := copyInto_spec buffer.length data buffer (by omega) (by omega)
  rw [hr]
  congr 1
  apply List.ext_getElem?
  intro k
  rw [hget k]
  split
  · rfl
  · rw [List.getElem?_eq_none (by omega), List.getElem?_eq_none (by omega)]

end Buffers

/-! ## The calibrating tick -/

section Calibrating

variable {F H G C K : Type}

/-- C10: the calibrating tick moves no motor.  In the mode `calibrate`, for every glove
sample (one value per sensor), `convertData` returns; it stores the sample in the raw
buffer, runs the filter on it, passes exactly the resulting filtered vector to
`GloveCalibrator::writeData`, and leaves the motor command vector and the connection mode
unchanged; the hand interface and the file performer are not called at all (neither
`moveMotors` nor the recorder's `writeData`), and no signal is emitted. -/
theorem calibrate_tick (E : Collab F H G C K) (c : Consts) (s : Translator F H G C K)
    (hmode : s.mConnectionType = .calibrate)
    (hbuf : s.mSensorDatas.length = c.numberOfSensors)
    (hsample : (E.glove.gloveDatas s.mGloveInterface).length = c.numberOfSensors) :
    ∃ t, Translator.convertData E c s = some t ∧
      t.mSensorDatas = E.glove.gloveDatas s.mGloveInterface ∧
      t.mKalmanFilter = E.filter.correct s.mKalmanFilter (E.glove.gloveDatas s.mGloveInterface) ∧
      t.mFiltredDatas = E.filter.getState t.mKalmanFilter ∧
      t.mGloveCalibrator = E.calibrator.writeData s.mGloveCalibrator t.mFiltredDatas ∧
      t.mConvertedDatas = s.mConvertedDatas ∧
      t.mConnectionType = s.mConnectionType ∧
      t.mHandInterface = s.mHandInterface ∧
      t.mFileActionPerformer = s.mFileActionPerformer ∧
      t.mGloveInterface = s.mGloveInterface ∧
      t.mUser = s.mUser ∧
      t.dataIsRead = s.dataIsRead ∧ t.loadingStoped = s.loadingStoped := by
  have hcopy : copyInto c.numberOfSensors (E.glove.gloveDatas s.mGloveInterface) s.mSensorDatas
      = some (E.glove.gloveDatas s.mGloveInterface) := by
    rw [← hbuf]
    exact copyInto_full _ _ (by omega)
  refine ⟨Translator.sendDataToCalibrator E (Translator.filterData E
    { s with mSensorDatas := E.glove.gloveDatas s.mGloveInterface }), ?_, ?_⟩
  · unfold Translator.convertData Translator.saveSensorsData
    simp only [hmode, hcopy]
    simp [Translator.filterData, hmode]
  · simp [Translator.sendDataToCalibrator, Translator.filterData]

end Calibrating

/-! ## The mapping loop -/

section Mapping

variable {F H G C K : Type}

/-- Assigning the same value `r` at each index of `ml`, when it returns: the length is
kept and exactly the entries listed in `ml` hold `r`. -/
theorem assignAll_some (r : Int) (ml : List Nat) (conv out : List Int)
    (h : ml.foldlM (fun cv m => assignAt cv m r) conv = some out) :
    out.length = conv.length ∧ ∀ k, out[k]? = if k ∈ ml then some r else conv[k]? := by
  induction ml generalizing conv with
  | nil =>
    simp only [List.foldlM_nil, Option.pure_def, Option.some.injEq] at h
    subst h
    simp
  | cons m ml ih =>
    rw [List.foldlM_cons] at h
    cases hstep : assignAt conv m r with
    | none => simp [hstep] at h
    | some mid =>
      rw [hstep] at h
      simp only [Option.bind_eq_bind, Option.some_bind] at h
      obtain ⟨hl, hget⟩ := ih mid h
      have hml := assignAt_length _ _ _ _ hstep
      unfold assignAt at hstep
      split at hstep
      · rename_i hm
        simp only [Option.some.injEq] at hstep
        subst hstep
        refine ⟨by rw [hl, hml], ?_⟩
        intro k
        rw [hget k, List.getElem?_set]
        by_cases hk : k ∈ ml
        · simp [hk]
        · by_cases hkm : m = k
          · subst hkm
            simp [hk, hm]
          · have : ¬ k = m := fun e => hkm e.symm
            simp [hk, hkm, this]
      · simp at hstep

/-- Assigning at indices that are all in range returns. -/
theorem assignAll_returns (r : Int) (ml : List Nat) (conv : List Int)
    (hin : ∀ m ∈ ml, m < conv.length) :
    ∃ out, ml.foldlM (fun cv m => assignAt cv m r) conv = some out := by
  induction ml generalizing conv with
  | nil => exact ⟨conv, rfl⟩
  | cons m ml ih =>
    rw [List.foldlM_cons]
    have hm : m < conv.length := hin m (List.mem_cons_self m ml)
    have hstep : assignAt conv m r = some (conv.set m r) := by
      simp [assignAt, hm]
    rw [hstep]
    simp only [Option.bind_eq_bind, Option.some_bind]
    apply ih
    intro k hk
    rw [List.length_set]
    exact hin k (List.mem_cons_of_mem m hk)

/-- The inner loop with the mapped value at hand. -/
theorem driveMotors_of_value (E : Collab F H G C K) (c : Consts) (u : User)
    (filtred : List Int) (i : Nat) (conv : List Int) (r : Int)
    (hr : Translator.mappedValue E c u filtred i = some r) :
    Translator.driveMotors E c u filtred i conv =
      (u.motorList i).foldlM (fun cv m => assignAt cv m r) conv := by
  unfold Translator.driveMotors
  simp [hr]

/-- The inner loop without a mapped value: it faults at the first motor, if there is one. -/
theorem driveMotors_of_fault (E : Collab F H G C K) (c : Consts) (u : User)
    (filtred : List Int) (i : Nat) (conv : List Int)
    (hr : Translator.mappedValue E c u filtred i = none) :
    Translator.driveMotors E c u filtred i conv =
      if u.motorList i = [] then some conv else none := by
  unfold Translator.driveMotors
  cases hml : u.motorList i with
  | nil => simp
  | cons m ml => simp [hr]

/-- The inner loop, when it returns: the motors of sensor `i` hold the mapped value, the
others are untouched. -/
theorem driveMotors_some (E : Collab F H G C K) (c : Consts) (u : User)
    (filtred : List Int) (i : Nat) (conv out : List Int)
    (h : Translator.driveMotors E c u filtred i conv = some out) :
    out.length = conv.length ∧
      ∀ k, out[k]? =
        if k ∈ u.motorList i then Translator.mappedValue E c u filtred i else conv[k]? := by
  cases hr : Translator.mappedValue E c u filtred i with
  | none =>
    rw [driveMotors_of_fault E c u filtred i conv hr] at h
    split at h
    · rename_i hnil
      simp only [Option.some.injEq] at h
      subst h
      simp [hnil]
    · simp at h
  | some r =>
    rw [driveMotors_of_value E c u filtred i conv r hr] at h
    exact assignAll_some r _ conv out h

/-- The inner loop returns when the motors of the sensor are in range and, if there is
one, the mapping returns. -/
theorem driveMotors_returns (E : Collab F H G C K) (c : Consts) (u : User)
    (filtred : List Int) (i : Nat) (conv : List Int)
    (hin : ∀ m ∈ u.motorList i, m < conv.length)
    (hval : u.motorList i ≠ [] → ∃ r, Translator.mappedValue E c u filtred i = some r) :
    ∃ out, Translator.driveMotors E c u filtred i conv = some out := by
  cases hr : Translator.mappedValue E c u filtred i with
  | none =>
    rw [driveMotors_of_fault E c u filtred i conv hr]
    by_cases hnil : u.motorList i = []
    · exact ⟨conv, by simp [hnil]⟩
    · obtain ⟨r, hr2⟩ := hval hnil
      rw [hr] at hr2
      cases hr2
  | some r =>
    rw [driveMotors_of_value E c u filtred i conv r hr]
    exact assignAll_returns r _ conv hin

/-- The mapping loop over the sensors below `n`, when it returns: a motor holds the value
mapped from the highest-indexed sensor below `n` that drives it, and is untouched when
no sensor below `n` drives it. -/
theorem mapSensors_range_some (E : Collab F H G C K) (c : Consts) (u : User)
    (filtred : List Int) (n : Nat) (conv out : List Int)
    (h : (List.range n).foldlM
      (fun cv i => Translator.driveMotors E c u filtred i cv) conv = some out) :
    out.length = conv.length ∧
      ∀ k,
        (∀ s, s < n → k ∈ u.motorList s → (∀ s2, s < s2 → s2 < n → k ∉ u.motorList s2) →
          out[k]? = Translator.mappedValue E c u filtred s) ∧
        ((∀ s, s < n → k ∉ u.motorList s) → out[k]? = conv[k]?) := by
  induction n generalizing out with
  | zero =>
    simp only [List.range_zero, List.foldlM_nil, Option.pure_def, Option.some.injEq] at h
    subst h
    refine ⟨rfl, fun k => ⟨?_, fun _ => rfl⟩⟩
    intro s hs
    omega
  | succ n ih =>
    rw [List.range_succ, List.foldlM_append] at h
    cases hmid : (List.range n).foldlM
        (fun cv i => Translator.driveMotors E c u filtred i cv) conv with
    | none => simp [hmid] at h
    | some mid =>
      rw [hmid] at h
      simp only [Option.bind_eq_bind, Option.some_bind, List.foldlM_cons, List.foldlM_nil] at h
      cases hlast : Translator.driveMotors E c u filtred n mid with
      | none => simp [hlast] at h
      | some last =>
        simp [hlast] at h
        subst h
        obtain ⟨hl1, hg1⟩ := ih mid hmid
        obtain ⟨hl2, hg2⟩ := driveMotors_some E c u filtred n mid last hlast
        refine ⟨by rw [hl2, hl1], fun k => ⟨?_, ?_⟩⟩
        · intro s hs hks hhigh
          rw [hg2 k]
          by_cases hsn : s = n
          · subst hsn
            simp [hks]
          · have hlt : s < n := by omega
            have hkn : k ∉ u.motorList n := hhigh n hlt (by omega)
            simp only [hkn, if_false]
            exact (hg1 k).1 s hlt hks (fun s2 h1 h2 => hhigh s2 h1 (by omega))
        · intro hnone
          rw [hg2 k]
          have hkn : k ∉ u.motorList n := hnone n (by omega)
          simp only [hkn, if_false]
          exact (hg1 k).2 (fun s hs => hnone s (by omega))

/-- The mapping loop over the sensors below `n` returns when every driven motor is in
range and the mapping returns for every sensor that drives a motor. -/
theorem mapSensors_range_returns (E : Collab F H G C K) (c : Consts) (u : User)
    (filtred : List Int) (n : Nat) (conv : List Int)
    (hin : ∀ s, s < n → ∀ m ∈ u.motorList s, m < conv.length)
    (hval : ∀ s, s < n → u.motorList s ≠ [] →
      ∃ r, Translator.mappedValue E c u filtred s = some r) :
    ∃ out, (List.range n).foldlM
      (fun cv i => Translator.driveMotors E c u filtred i cv) conv = some out := by
  induction n with
  | zero => exact ⟨conv, rfl⟩
  | succ n ih =>
    obtain ⟨mid, hmid⟩ := ih (fun s hs => hin s (by omega)) (fun s hs => hval s (by omega))
    have hl := (mapSensors_range_some E c u filtred n conv mid hmid).1
    obtain ⟨last, hlast⟩ := driveMotors_returns E c u filtred n mid
      (fun m hm => by rw [hl]; exact hin n (by omega) m hm) (hval n (by omega))
    refine ⟨last, ?_⟩
    rw [List.range_succ, List.foldlM_append, hmid]
    simp [hlast]

end Mapping

/-! ## The LiveDrive tick -/

section LiveDrive

variable {F H G C K : Type}

/-- The two loops of the constructor: the conformity `(i, i)` for every motor `i`, and a
motor command vector of zeros. -/
theorem new_loop (n : Nat) :
    (List.range n).foldl
        (fun (p : User × List Int) i => (p.1.addSensorMotorConformity i i, 0 :: p.2))
        (User.new, [])
      = ({ dofs := [], conformity := (List.range n).map (fun i => (i, i)) },
          List.replicate n 0) := by
  induction n with
  | zero => rfl
  | succ n ih =>
    rw [List.range_succ, List.foldl_append, ih]
    simp [User.addSensorMotorConformity, List.replicate_succ]

theorem new_zeros (n : Nat) :
    (List.range n).foldl (fun (l : List Int) _ => 0 :: l) [] = List.replicate n 0 := by
  induction n with
  | zero => rfl
  | succ n ih =>
    rw [List.range_succ, List.foldl_append, ih]
    simp [List.replicate_succ]

/-- The conformity installed by the constructor is one-to-one on the motors. -/
theorem new_conformity (E : Collab F H G C K) (c : Consts) (f : F) (cal : C) (g : G) (h : H) :
    (Translator.new E c f cal g h).mUser.conformity
      = (List.range c.numberOfMotors).map (fun i => (i, i)) := by
  unfold Translator.new
  simp only [new_loop]

/-- Under the one-to-one conformity on `n` motors, sensor `i` drives motor `i` only, and
only when `i < n`. -/
theorem motorList_default (u : User) (n : Nat)
    (hc : u.conformity = (List.range n).map (fun i => (i, i))) (i k : Nat) :
    k ∈ u.motorList i ↔ k = i ∧ i < n := by
  unfold User.motorList
  rw [hc]
  simp only [List.mem_map, List.mem_filter, List.mem_range, beq_iff_eq, Prod.exists,
    Prod.mk.injEq]
  constructor
  · rintro ⟨a, b, ⟨⟨x, hx, rfl, rfl⟩, rfl⟩, rfl⟩
    exact ⟨rfl, hx⟩
  · rintro ⟨rfl, hi⟩
    exact ⟨k, k, ⟨⟨k, hi, rfl, rfl⟩, rfl⟩, rfl⟩

/-- The tick in the mode `gloveToHand`, as far as the mapping loop. -/
theorem convertData_gloveToHand (E : Collab F H G C K) (c : Consts) (s : Translator F H G C K)
    (hmode : s.mConnectionType = .gloveToHand) :
    Translator.convertData E c s =
      (copyInto c.numberOfSensors (E.glove.gloveDatas s.mGloveInterface) s.mSensorDatas).bind
        (fun buf =>
          (Translator.mapSensors E c s.mUser
            (E.filter.getState (E.filter.correct s.mKalmanFilter buf)) s.mConvertedDatas).bind
          (fun conv => some (Translator.sendDataToHand E
            { s with
              mSensorDatas := buf
              mKalmanFilter := E.filter.correct s.mKalmanFilter buf
              mFiltredDatas := E.filter.getState (E.filter.correct s.mKalmanFilter buf)
              dataIsRead := s.dataIsRead + 1
              mConvertedDatas := conv }))) := by
  unfold Translator.convertData Translator.saveSensorsData
  simp only [hmode]
  cases copyInto c.numberOfSensors (E.glove.gloveDatas s.mGloveInterface) s.mSensorDatas with
  | none => simp
  | some buf =>
    simp [Translator.filterData, hmode]

/-- C8: the LiveDrive tick.  In the mode `gloveToHand`, for every glove sample of length
`numberOfSensors` (the raw buffer having that length, every driven motor index being in
range and the mapping returning for every sensor that drives a motor), `convertData`
returns; afterwards the raw buffer equals the sample, the filtered buffer is the filter
state after `correct(sample)`, and for every motor index `m`: if sensor `i` (an index
below `numberOfSensors`) drives `m` and no higher sensor does, `convertedData[m]` is
`Translator::map(F[i], sensorMin(i), sensorMax(i))`; if no sensor drives `m`,
`convertedData[m]` is unchanged.  With the one-to-one conformity installed by the
constructor, `convertedData[i] = Translator::map(F[i], sensorMin(i), sensorMax(i))` for every
`i` below `numberOfSensors` and `numberOfMotors`. -/
theorem liveDrive_tick (E : Collab F H G C K) (c : Consts) (s : Translator F H G C K)
    (hmode : s.mConnectionType = .gloveToHand)
    (hbuf : s.mSensorDatas.length = c.numberOfSensors)
    (hsample : (E.glove.gloveDatas s.mGloveInterface).length = c.numberOfSensors)
    (hin : ∀ i, i < c.numberOfSensors → ∀ m ∈ s.mUser.motorList i, m < s.mConvertedDatas.length)
    (hval : ∀ i, i < c.numberOfSensors → s.mUser.motorList i ≠ [] →
      ∃ r, Translator.mappedValue E c s.mUser
        (E.filter.getState (E.filter.correct s.mKalmanFilter
          (E.glove.gloveDatas s.mGloveInterface))) i = some r) :
    ∃ t, Translator.convertData E c s = some t ∧
      t.mSensorDatas = E.glove.gloveDatas s.mGloveInterface ∧
      t.mKalmanFilter
        = E.filter.correct s.mKalmanFilter (E.glove.gloveDatas s.mGloveInterface) ∧
      t.mFiltredDatas = E.filter.getState t.mKalmanFilter ∧
      (∀ m,
        (∀ i, i < c.numberOfSensors → m ∈ s.mUser.motorList i →
          (∀ i2, i < i2 → i2 < c.numberOfSensors → m ∉ s.mUser.motorList i2) →
          t.mConvertedDatas[m]? = Translator.mappedValue E c s.mUser t.mFiltredDatas i) ∧
        ((∀ i, i < c.numberOfSensors → m ∉ s.mUser.motorList i) →
          t.mConvertedDatas[m]? = s.mConvertedDatas[m]?)) ∧
      (s.mUser.conformity
          = (Translator.new E c s.mFileActionPerformer s.mGloveCalibrator s.mGloveInterface
              s.mHandInterface).mUser.conformity →
        ∀ i, i < c.numberOfSensors → i < c.numberOfMotors →
          t.mConvertedDatas[i]? = Translator.mappedValue E c s.mUser t.mFiltredDatas i) := by
  have hcopy : copyInto c.numberOfSensors (E.glove.gloveDatas s.mGloveInterface) s.mSensorDatas
      = some (E.glove.gloveDatas s.mGloveInterface) := by
    rw [← hbuf]
    exact copyInto_full _ _ (by omega)
  obtain ⟨conv, hconv⟩ := mapSensors_range_returns E c s.mUser
    (E.filter.getState (E.filter.correct s.mKalmanFilter
      (E.glove.gloveDatas s.mGloveInterface))) c.numberOfSensors s.mConvertedDatas hin hval
  obtain ⟨_, hget⟩ := mapSensors_range_some E c s.mUser _ c.numberOfSensors _ conv hconv
  have hmap : Translator.mapSensors E c s.mUser
      (E.filter.getState (E.filter.correct s.mKalmanFilter
        (E.glove.gloveDatas s.mGloveInterface))) s.mConvertedDatas = some conv := hconv
  have hconvOut : ∀ x : Translator F H G C K,
      (Translator.sendDataToHand E x).mConvertedDatas = x.mConvertedDatas := by
    intro x
    unfold Translator.sendDataToHand
    split <;> rfl
  have hrest : ∀ x : Translator F H G C K,
      (Translator.sendDataToHand E x).mSensorDatas = x.mSensorDatas ∧
      (Translator.sendDataToHand E x).mKalmanFilter = x.mKalmanFilter ∧
      (Translator.sendDataToHand E x).mFiltredDatas = x.mFiltredDatas := by
    intro x
    unfold Translator.sendDataToHand
    split <;> exact ⟨rfl, rfl, rfl⟩
  refine ⟨Translator.sendDataToHand E
    { s with
      mSensorDatas := E.glove.gloveDatas s.mGloveInterface
      mKalmanFilter := E.filter.correct s.mKalmanFilter (E.glove.gloveDatas s.mGloveInterface)
      mFiltredDatas := E.filter.getState
        (E.filter.correct s.mKalmanFilter (E.glove.gloveDatas s.mGloveInterface))
      dataIsRead := s.dataIsRead + 1
      mConvertedDatas := conv }, ?_, ?_⟩
  · rw [convertData_gloveToHand E c s hmode, hcopy]
    simp only [Option.some_bind, hmap]
  · refine ⟨(hrest _).1, (hrest _).2.1, ?_, ?_, ?_⟩
    · rw [(hrest _).2.2, (hrest _).2.1]
    · intro m
      rw [hconvOut, (hrest _).2.2]
      exact hget m
    · intro hdef i hi1 hi2
      rw [new_conformity] at hdef
      rw [hconvOut, (hrest _).2.2]
      refine (hget i).1 i hi1 ?_ ?_
      · exact (motorList_default s.mUser c.numberOfMotors hdef i i).2 ⟨rfl, hi2⟩
      · intro i2 h1 _ hmem
        have := (motorList_default s.mUser c.numberOfMotors hdef i2 i).1 hmem
        omega

end LiveDrive

/-! ## Sizes of the buffers in reachable states -/

section Shape

variable {F H G C K : Type}

theorem sameShape_trans {s t r : Translator F H G C K} (h1 : Translator.SameShape s t)
    (h2 : Translator.SameShape t r) : Translator.SameShape s r :=
  ⟨h2.1.trans h1.1, h2.2.1.trans h1.2.1, h2.2.2.trans h1.2.2⟩

theorem wellFormed_of_sameShape {c : Consts} {s t : Translator F H G C K}
    (h : Translator.SameShape s t) (hs : s.WellFormed c) : t.WellFormed c :=
  ⟨h.1.trans hs.1, h.2.1.trans hs.2.1, h.2.2.trans hs.2.2⟩

theorem sameShape_startConnection (E : Collab F H G C K) (s : Translator F H G C K) :
    Translator.SameShape s (Translator.startConnection E s) := by
  unfold Translator.startConnection
  split <;> exact ⟨rfl, rfl, rfl⟩

theorem sameShape_stopConnection (E : Collab F H G C K) (s : Translator F H G C K) :
    Translator.SameShape s (Translator.stopConnection E s) := by
  unfold Translator.stopConnection
  split <;> exact ⟨rfl, rfl, rfl⟩

theorem sameShape_setConnectionType (E : Collab F H G C K) (type : ConnectionType)
    (s : Translator F H G C K) :
    Translator.SameShape s (Translator.setConnectionType E type s) :=
  sameShape_stopConnection E s

theorem sameShape_stopLoadAction (E : Collab F H G C K) (s : Translator F H G C K) :
    Translator.SameShape s (Translator.stopLoadAction E s) := by
  unfold Translator.stopLoadAction
  split
  · exact ⟨rfl, rfl, rfl⟩
  · exact sameShape_setConnectionType E .noConnection s

theorem sameShape_startLoadAction (E : Collab F H G C K) (fileName : String)
    (s : Translator F H G C K) :
    Translator.SameShape s (Translator.startLoadAction E fileName s) := by
  unfold Translator.startLoadAction
  have h1 : Translator.SameShape s
      (if E.file.isLoaded s.mFileActionPerformer then Translator.stopLoadAction E s else s) := by
    split
    · exact sameShape_stopLoadAction E s
    · exact ⟨rfl, rfl, rfl⟩
  revert h1
  generalize (if E.file.isLoaded s.mFileActionPerformer then Translator.stopLoadAction E s
      else s) = s1
  intro h1
  have h2 : Translator.SameShape s (Translator.setConnectionType E .actionToHand s1) :=
    sameShape_trans h1 (sameShape_setConnectionType E .actionToHand s1)
  dsimp only
  split
  · exact sameShape_trans h2 (sameShape_startConnection E _)
  · exact h2

theorem sameShape_stopSaveAction (E : Collab F H G C K) (s : Translator F H G C K) :
    Translator.SameShape s (Translator.stopSaveAction E s) :=
  sameShape_setConnectionType E .noConnection s

theorem sameShape_startSaveAction (E : Collab F H G C K) (c : Consts) (fileName : String)
    (freq : Int) (s : Translator F H G C K) :
    Translator.SameShape s (Translator.startSaveAction E c fileName freq s) := by
  unfold Translator.startSaveAction
  have h1 : Translator.SameShape s
      (if E.file.isSaved s.mFileActionPerformer then Translator.stopSaveAction E s else s) := by
    split
    · exact sameShape_stopSaveAction E s
    · exact ⟨rfl, rfl, rfl⟩
  exact sameShape_trans h1 (sameShape_trans (sameShape_setConnectionType E .gloveToHand _)
    (sameShape_startConnection E _))

theorem sameShape_startCalibrate (E : Collab F H G C K) (s : Translator F H G C K) :
    Translator.SameShape s (Translator.startCalibrate E s) :=
  sameShape_trans (sameShape_setConnectionType E .calibrate s) (sameShape_startConnection E _)

theorem sameShape_stopCalibrate (E : Collab F H G C K) (c : Consts) (s : Translator F H G C K) :
    Translator.SameShape s (Translator.stopCalibrate E c s) := by
  have h := sameShape_stopConnection E
    { s with
      mUser := Translator.foldCalibration c (E.calibrator.minCalibratedList s.mGloveCalibrator)
        (E.calibrator.maxCalibratedList s.mGloveCalibrator) s.mUser
      mGloveCalibrator := E.calibrator.stopCalibrate s.mGloveCalibrator }
  have h0 : Translator.SameShape s
      { s with
        mUser := Translator.foldCalibration c
          (E.calibrator.minCalibratedList s.mGloveCalibrator)
          (E.calibrator.maxCalibratedList s.mGloveCalibrator) s.mUser
        mGloveCalibrator := E.calibrator.stopCalibrate s.mGloveCalibrator } := by
    refine ⟨rfl, rfl, ?_⟩
    show (Translator.foldCalibration c _ _ s.mUser).conformity = s.mUser.conformity
    rw [foldCalibration_dofs]
  exact sameShape_trans h0 h

theorem sameShape_sendDataToHand (E : Collab F H G C K) (s : Translator F H G C K) :
    Translator.SameShape s (Translator.sendDataToHand E s) := by
  unfold Translator.sendDataToHand
  split <;> exact ⟨rfl, rfl, rfl⟩

/-- The tick in the mode `actionToHand` when the file source reports a correct frame. -/
theorem convertData_actionToHand (E : Collab F H G C K) (c : Consts) (s : Translator F H G C K)
    (hmode : s.mConnectionType = .actionToHand)
    (hok : E.file.isFileCorrect (E.file.data s.mFileActionPerformer).2 = true)
    (hend : E.file.isFileEnd (E.file.data s.mFileActionPerformer).2 = false) :
    Translator.convertData E c s =
      (copyInto c.numberOfMotors (E.file.data s.mFileActionPerformer).1 s.mConvertedDatas).bind
        (fun conv => some (Translator.sendDataToHand E
          { s with
            mFileActionPerformer := (E.file.data s.mFileActionPerformer).2
            mConvertedDatas := conv })) := by
  unfold Translator.convertData Translator.saveConvertedData
  simp only [hmode, hok, hend]
  cases copyInto c.numberOfMotors (E.file.data s.mFileActionPerformer).1 s.mConvertedDatas with
  | none => simp
  | some conv => simp

/-- The tick in the mode `actionToHand` when the file source reports an error or the end. -/
theorem convertData_actionToHand_stop (E : Collab F H G C K) (c : Consts)
    (s : Translator F H G C K) (hmode : s.mConnectionType = .actionToHand)
    (hbad : (!E.file.isFileCorrect (E.file.data s.mFileActionPerformer).2
      || E.file.isFileEnd (E.file.data s.mFileActionPerformer).2) = true) :
    Translator.convertData E c s =
      some (Translator.stopLoadAction E
        { s with mFileActionPerformer := (E.file.data s.mFileActionPerformer).2 }) := by
  unfold Translator.convertData
  simp [hmode, hbad]

/-- The tick in the mode `calibrate`. -/
theorem convertData_calibrate (E : Collab F H G C K) (c : Consts) (s : Translator F H G C K)
    (hmode : s.mConnectionType = .calibrate) :
    Translator.convertData E c s =
      (copyInto c.numberOfSensors (E.glove.gloveDatas s.mGloveInterface) s.mSensorDatas).bind
        (fun buf => some (Translator.sendDataToCalibrator E (Translator.filterData E
          { s with mSensorDatas := buf }))) := by
  unfold Translator.convertData Translator.saveSensorsData
  simp only [hmode]
  cases copyInto c.numberOfSensors (E.glove.gloveDatas s.mGloveInterface) s.mSensorDatas with
  | none => simp
  | some buf => simp [Translator.filterData, hmode]

theorem sameShape_convertData (E : Collab F H G C K) (c : Consts) (s t : Translator F H G C K)
    (h : Translator.convertData E c s = some t) : Translator.SameShape s t := by
  cases hm : s.mConnectionType with
  | noConnection =>
    unfold Translator.convertData at h
    simp only [hm, if_true, Option.some.injEq] at h
    subst h
    exact ⟨rfl, rfl, rfl⟩
  | gloveToHand =>
    rw [convertData_gloveToHand E c s hm] at h
    cases hb : copyInto c.numberOfSensors (E.glove.gloveDatas s.mGloveInterface)
        s.mSensorDatas with
    | none => simp [hb] at h
    | some buf =>
      rw [hb] at h
      simp only [Option.some_bind] at h
      cases hc : Translator.mapSensors E c s.mUser
          (E.filter.getState (E.filter.correct s.mKalmanFilter buf)) s.mConvertedDatas with
      | none => simp [hc] at h
      | some conv =>
        rw [hc] at h
        simp only [Option.some_bind, Option.some.injEq] at h
        subst h
        have hl1 := copyInto_length _ _ _ _ hb
        have hl2 := (mapSensors_range_some E c s.mUser _ c.numberOfSensors _ conv hc).1
        have h0 : Translator.SameShape s
            { s with
              mSensorDatas := buf
              mKalmanFilter := E.filter.correct s.mKalmanFilter buf
              mFiltredDatas := E.filter.getState (E.filter.correct s.mKalmanFilter buf)
              dataIsRead := s.dataIsRead + 1
              mConvertedDatas := conv } := ⟨hl1, hl2, rfl⟩
        exact sameShape_trans h0 (sameShape_sendDataToHand E _)
  | actionToHand =>
    cases hbad : (!E.file.isFileCorrect (E.file.data s.mFileActionPerformer).2
        || E.file.isFileEnd (E.file.data s.mFileActionPerformer).2) with
    | true =>
      rw [convertData_actionToHand_stop E c s hm hbad] at h
      simp only [Option.some.injEq] at h
      subst h
      have h0 : Translator.SameShape s
          { s with mFileActionPerformer := (E.file.data s.mFileActionPerformer).2 } :=
        ⟨rfl, rfl, rfl⟩
      exact sameShape_trans h0 (sameShape_stopLoadAction E _)
    | false =>
      simp only [Bool.or_eq_false_iff, Bool.not_eq_false'] at hbad
      rw [convertData_actionToHand E c s hm hbad.1 hbad.2] at h
      cases hb : copyInto c.numberOfMotors (E.file.data s.mFileActionPerformer).1
          s.mConvertedDatas with
      | none => simp [hb] at h
      | some conv =>
        rw [hb] at h
        simp only [Option.some_bind, Option.some.injEq] at h
        subst h
        have hl := copyInto_length _ _ _ _ hb
        have h0 : Translator.SameShape s
            { s with
              mFileActionPerformer := (E.file.data s.mFileActionPerformer).2
              mConvertedDatas := conv } := ⟨rfl, hl, rfl⟩
        exact sameShape_trans h0 (sameShape_sendDataToHand E _)
  | calibrate =>
    rw [convertData_calibrate E c s hm] at h
    cases hb : copyInto c.numberOfSensors (E.glove.gloveDatas s.mGloveInterface)
        s.mSensorDatas with
    | none => simp [hb] at h
    | some buf =>
      rw [hb] at h
      simp only [Option.some_bind, Option.some.injEq] at h
      subst h
      have hl := copyInto_length _ _ _ _ hb
      exact ⟨hl, rfl, rfl⟩

theorem wellFormed_new (E : Collab F H G C K) (c : Consts) (f : F) (cal : C) (g : G) (h : H) :
    (Translator.new E c f cal g h).WellFormed c := by
  refine ⟨?_, ?_, new_conformity E c f cal g h⟩
  · unfold Translator.new
    simp only [new_zeros, List.length_replicate]
  · unfold Translator.new
    simp only [new_loop, List.length_replicate]

theorem sameShape_step (E : Collab F H G C K) (c : Consts) (op : Op)
    (s t : Translator F H G C K) (h : Translator.step E c op s = some t) :
    Translator.SameShape s t := by
  cases op <;> simp only [Translator.step, Option.some.injEq] at h
  case convertData => exact sameShape_convertData E c s t h
  all_goals subst h
  · exact sameShape_setConnectionType E _ s
  · exact sameShape_startConnection E s
  · exact sameShape_stopConnection E s
  · exact sameShape_startLoadAction E _ s
  · exact sameShape_stopLoadAction E s
  · exact sameShape_startSaveAction E c _ _ s
  · exact sameShape_stopSaveAction E s
  · exact sameShape_startCalibrate E s
  · exact sameShape_stopCalibrate E c s

/-- In every reachable state the buffers have the sizes fixed by the constructor and the
conformity is the one-to-one conformity installed by it. -/
theorem wellFormed_of_reachable (E : Collab F H G C K) (c : Consts) (s : Translator F H G C K)
    (hr : Reachable E c s) : s.WellFormed c := by
  induction hr with
  | fresh f cal g h => exact wellFormed_new E c f cal g h
  | call op s t _ hstep ih => exact wellFormed_of_sameShape (sameShape_step E c op s t hstep) ih
  | world s f cal g h _ ih => exact wellFormed_of_sameShape ⟨rfl, rfl, rfl⟩ ih

end Shape

/-! ## Dispatched motor commands -/

section Dispatch

variable {F H G C K : Type}

/-- A mapped value is a result of `Translator::map`, hence within the motor range. -/
theorem mappedValue_in_range (E : Collab F H G C K) (c : Consts) (u : User)
    (filtred : List Int) (i : Nat) (v : Int)
    (hrange : c.motorMinValue ≤ c.motorMaxValue)
    (h : Translator.mappedValue E c u filtred i = some v) :
    c.motorMinValue ≤ v ∧ v ≤ c.motorMaxValue := by
  unfold Translator.mappedValue at h
  cases h1 : filtred[i]? with
  | none => simp [h1] at h
  | some x =>
    cases h2 : u.sensorMin i with
    | none => simp [h1, h2] at h
    | some mn =>
      cases h3 : u.sensorMax i with
      | none => simp [h1, h2, h3] at h
      | some mx =>
        simp only [h1, h2, h3, Option.bind_eq_bind, Option.some_bind] at h
        exact map_in_range E c x mn mx v hrange h

/-- What `sendDataToHand` hands over: the motor command vector goes to `moveMotors`, and
to the recorder's `writeData` when a recording is active. -/
theorem sendDataToHand_spec (E : Collab F H G C K) (s : Translator F H G C K) :
    (Translator.sendDataToHand E s).mHandInterface
        = E.hand.moveMotors s.mHandInterface s.mConvertedDatas ∧
      (Translator.sendDataToHand E s).mConvertedDatas = s.mConvertedDatas ∧
      (E.file.isSaved s.mFileActionPerformer = true →
        (Translator.sendDataToHand E s).mFileActionPerformer
          = E.file.writeData s.mFileActionPerformer s.mConvertedDatas) ∧
      (E.file.isSaved s.mFileActionPerformer = false →
        (Translator.sendDataToHand E s).mFileActionPerformer = s.mFileActionPerformer) := by
  unfold Translator.sendDataToHand
  cases hsv : E.file.isSaved s.mFileActionPerformer <;> simp

/-- The copy loop returns only when both lists have `n` entries. -/
theorem copyInto_some (n : Nat) (data buffer r : List Int)
    (h : copyInto n data buffer = some r) : n ≤ data.length ∧ n ≤ buffer.length := by
  induction n generalizing r with
  | zero => exact ⟨Nat.zero_le _, Nat.zero_le _⟩
  | succ n ih =>
    have hlen := copyInto_length _ _ _ _ h
    unfold copyInto at h ih
    rw [List.range_succ, List.foldlM_append] at h
    cases hmid : List.foldlM (fun buf i => do
        let v ← data[i]?
        assignAt buf i v) buffer (List.range n) with
    | none =>
      rw [hmid] at h
      simp at h
    | some mid =>
      rw [hmid] at h
      have hl : mid.length = buffer.length := copyInto_length n data buffer mid hmid
      simp only [Option.bind_eq_bind, Option.some_bind, List.foldlM_cons, List.foldlM_nil] at h
      cases hv : data[n]? with
      | none =>
        rw [hv] at h
        simp at h
      | some v =>
        rw [hv] at h
        simp only [Option.some_bind, assignAt] at h
        have hdn : n < data.length := by
          by_contra hcon
          rw [List.getElem?_eq_none (by omega)] at hv
          cases hv
        by_cases hm : n < mid.length
        · exact ⟨by omega, by omega⟩
        · simp [hm] at h

/-- C9 (amended): the vectors handed to the hand.  In every reachable state, a tick that
dispatches hands the motor command vector (of length `numberOfMotors`) to
`HandInterface::moveMotors`, and to the recorder's `writeData` when saving.  After a
LiveDrive tick every entry below `numberOfSensors` (the motors driven by a sensor) lies
within `[motorMinValue, motorMaxValue]` and every other entry is unchanged; such a tick
returns whenever the sample has `numberOfSensors` entries and the mapping returns for the
sensors that drive a motor.  After a Replay tick on a correct frame the entries are those
of the frame as read, not clamped; such a tick returns whenever the frame has
`numberOfMotors` entries. -/
theorem dispatched_commands (E : Collab F H G C K) (c : Consts) (s : Translator F H G C K)
    (hr : Reachable E c s) (hrange : c.motorMinValue ≤ c.motorMaxValue) :
    (s.mConnectionType = .gloveToHand →
      ((E.glove.gloveDatas s.mGloveInterface).length = c.numberOfSensors →
        (∀ i, i < c.numberOfSensors → i < c.numberOfMotors →
          ∃ r, Translator.mappedValue E c s.mUser
            (E.filter.getState (E.filter.correct s.mKalmanFilter
              (E.glove.gloveDatas s.mGloveInterface))) i = some r) →
        ∃ t, Translator.convertData E c s = some t) ∧
      ∀ t, Translator.convertData E c s = some t →
        t.mHandInterface = E.hand.moveMotors s.mHandInterface t.mConvertedDatas ∧
        (E.file.isSaved s.mFileActionPerformer = true →
          t.mFileActionPerformer = E.file.writeData s.mFileActionPerformer t.mConvertedDatas) ∧
        t.mConvertedDatas.length = c.numberOfMotors ∧
        (∀ m v, m < c.numberOfSensors → t.mConvertedDatas[m]? = some v →
          c.motorMinValue ≤ v ∧ v ≤ c.motorMaxValue) ∧
        (∀ m, c.numberOfSensors ≤ m → t.mConvertedDatas[m]? = s.mConvertedDatas[m]?)) ∧
      (s.mConnectionType = .actionToHand →
        E.file.isFileCorrect (E.file.data s.mFileActionPerformer).2 = true →
        E.file.isFileEnd (E.file.data s.mFileActionPerformer).2 = false →
        (c.numberOfMotors ≤ (E.file.data s.mFileActionPerformer).1.length →
          ∃ t, Translator.convertData E c s = some t) ∧
        ∀ t, Translator.convertData E c s = some t →
          t.mHandInterface = E.hand.moveMotors s.mHandInterface t.mConvertedDatas ∧
          (E.file.isSaved (E.file.data s.mFileActionPerformer).2 = true →
            t.mFileActionPerformer
              = E.file.writeData (E.file.data s.mFileActionPerformer).2 t.mConvertedDatas) ∧
          t.mConvertedDatas.length = c.numberOfMotors ∧
          ∀ m, m < c.numberOfMotors →
            t.mConvertedDatas[m]? = (E.file.data s.mFileActionPerformer).1[m]?) := by
  obtain ⟨hsensLen, hconvLen, hconf⟩ := wellFormed_of_reachable E c s hr
  constructor
  · intro hmode
    refine ⟨?_, ?_⟩
    · intro hsample hval
      have hcopy : copyInto c.numberOfSensors (E.glove.gloveDatas s.mGloveInterface)
          s.mSensorDatas = some (E.glove.gloveDatas s.mGloveInterface) := by
        rw [← hsensLen]
        exact copyInto_full _ _ (by omega)
      obtain ⟨conv, hconv⟩ := mapSensors_range_returns E c s.mUser
        (E.filter.getState (E.filter.correct s.mKalmanFilter
          (E.glove.gloveDatas s.mGloveInterface))) c.numberOfSensors s.mConvertedDatas
        (fun i _ m hm => by
          have := (motorList_default s.mUser c.numberOfMotors hconf i m).1 hm
          omega)
        (fun i hi hne => by
          obtain ⟨m, hm⟩ := List.exists_mem_of_ne_nil _ hne
          have := (motorList_default s.mUser c.numberOfMotors hconf i m).1 hm
          exact hval i hi this.2)
      have hmap : Translator.mapSensors E c s.mUser
          (E.filter.getState (E.filter.correct s.mKalmanFilter
            (E.glove.gloveDatas s.mGloveInterface))) s.mConvertedDatas = some conv := hconv
      rw [convertData_gloveToHand E c s hmode, hcopy]
      simp only [Option.some_bind, hmap]
      exact ⟨_, rfl⟩
    intro t ht
    rw [convertData_gloveToHand E c s hmode] at ht
    cases hb : copyInto c.numberOfSensors (E.glove.gloveDatas s.mGloveInterface)
        s.mSensorDatas with
    | none => simp [hb] at ht
    | some buf =>
      rw [hb] at ht
      simp only [Option.some_bind] at ht
      cases hc : Translator.mapSensors E c s.mUser
          (E.filter.getState (E.filter.correct s.mKalmanFilter buf)) s.mConvertedDatas with
      | none => simp [hc] at ht
      | some conv =>
        rw [hc] at ht
        simp only [Option.some_bind, Option.some.injEq] at ht
        subst ht
        obtain ⟨hlen, hget⟩ := mapSensors_range_some E c s.mUser _ c.numberOfSensors _ conv hc
        obtain ⟨h1, h2, h3, _⟩ := sendDataToHand_spec E
          { s with
            mSensorDatas := buf
            mKalmanFilter := E.filter.correct s.mKalmanFilter buf
            mFiltredDatas := E.filter.getState (E.filter.correct s.mKalmanFilter buf)
            dataIsRead := s.dataIsRead + 1
            mConvertedDatas := conv }
        rw [h2]
        refine ⟨h1, h3, by rw [← hconvLen]; exact hlen, ?_, ?_⟩
        · intro m v hm hv
          have hmlen : m < conv.length := by
            by_contra hcon
            have hnone : conv[m]? = none := List.getElem?_eq_none (by omega)
            change conv[m]? = some v at hv
            rw [hnone] at hv
            cases hv
          have hmM : m < c.numberOfMotors := by omega
          have hdrive := (hget m).1 m hm
            ((motorList_default s.mUser c.numberOfMotors hconf m m).2 ⟨rfl, hmM⟩)
            (fun i2 h1 _ hmem => by
              have := (motorList_default s.mUser c.numberOfMotors hconf i2 m).1 hmem
              omega)
          change conv[m]? = some v at hv
          rw [hdrive] at hv
          exact mappedValue_in_range E c s.mUser _ m v hrange hv
        · intro m hm
          exact (hget m).2 (fun i hi hmem => by
            have := (motorList_default s.mUser c.numberOfMotors hconf i m).1 hmem
            omega)
  · intro hmode hok hend
    rw [convertData_actionToHand E c s hmode hok hend]
    constructor
    · intro hframe
      obtain ⟨r, hr2, _, _⟩ := copyInto_spec c.numberOfMotors
        (E.file.data s.mFileActionPerformer).1 s.mConvertedDatas hframe (by omega)
      rw [hr2]
      exact ⟨_, rfl⟩
    · intro t ht
      cases hb : copyInto c.numberOfMotors (E.file.data s.mFileActionPerformer).1
          s.mConvertedDatas with
      | none => simp [hb] at ht
      | some conv =>
        rw [hb] at ht
        simp only [Option.some_bind, Option.some.injEq] at ht
        subst ht
        obtain ⟨hd, hbl⟩ := copyInto_some _ _ _ _ hb
        obtain ⟨r, hr2, hlen, hget⟩ := copyInto_spec c.numberOfMotors
          (E.file.data s.mFileActionPerformer).1 s.mConvertedDatas hd hbl
        rw [hb] at hr2
        simp only [Option.some.injEq] at hr2
        subst hr2
        obtain ⟨h1, h2, h3, _⟩ := sendDataToHand_spec E
          { s with
            mFileActionPerformer := (E.file.data s.mFileActionPerformer).2
            mConvertedDatas := conv }
        rw [h2]
        refine ⟨h1, h3, by rw [← hconvLen]; exact hlen, ?_⟩
        intro m hm
        change conv[m]? = _
        rw [hget m]
        simp [hm]

end Dispatch

/-! ## Concrete runs -/

/-- Witness of C10: one calibrating tick of `calibrating2` on the sample `[12, 34]`. -/
theorem calibrate_tick_witness :
    (calibrating2.mConnectionType = .calibrate ∧
      calibrating2.mSensorDatas.length = consts2.numberOfSensors ∧
      (sim.glove.gloveDatas calibrating2.mGloveInterface).length = consts2.numberOfSensors) ∧
    ∃ t, Translator.convertData sim consts2 calibrating2 = some t ∧
      t.mSensorDatas = [12, 34] ∧
      t.mGloveCalibrator = sim.calibrator.writeData calibrating2.mGloveCalibrator [12, 34] ∧
      t.mConvertedDatas = calibrating2.mConvertedDatas ∧
      t.mConnectionType = .calibrate ∧
      t.mHandInterface = calibrating2.mHandInterface ∧
      t.mFileActionPerformer = calibrating2.mFileActionPerformer :=
  ⟨⟨by decide, by decide, by decide⟩, by
    obtain ⟨t, ht, h1, h2, h3, h4, h5, h6, h7, h8, _⟩ :=
      calibrate_tick sim consts2 calibrating2 (by decide) (by decide) (by decide)
    refine ⟨t, ht, h1, ?_, h5, h6, h7, h8⟩
    rw [h4, h3, h2]
    rfl⟩

/-- Witness of C8: one LiveDrive tick of `live2` on the sample `[50, 300]`, both sensors
calibrated to `[0, 100]`: the motors receive 127 and the clamped 255. -/
theorem liveDrive_tick_witness :
    (live2.mConnectionType = .gloveToHand ∧
      live2.mSensorDatas.length = consts2.numberOfSensors ∧
      (sim.glove.gloveDatas live2.mGloveInterface).length = consts2.numberOfSensors) ∧
    ∃ t, Translator.convertData sim consts2 live2 = some t ∧
      t.mSensorDatas = [50, 300] ∧
      t.mConvertedDatas[0]? = some 127 ∧ t.mConvertedDatas[1]? = some 255 :=
  ⟨⟨by decide, by decide, by decide⟩, by
    obtain ⟨t, ht, h1, h2, h3, _, h5⟩ :=
      liveDrive_tick sim consts2 live2 (by decide) (by decide) (by decide) (by decide)
        (by
          intro i hi _
          have hcases : i = 0 ∨ i = 1 := by
            have : i < 2 := hi
            omega
          rcases hcases with h | h
          · subst h
            exact ⟨127, by decide⟩
          · subst h
            exact ⟨255, by decide⟩)
    have h0 := h5 (by decide) 0 (by decide) (by decide)
    have hOne := h5 (by decide) 1 (by decide) (by decide)
    rw [h3, h2] at h0 hOne
    refine ⟨t, ht, h1, ?_, ?_⟩
    · rw [h0]
      decide
    · rw [hOne]
      decide⟩

/-- Witness of C9: the Replay state `replay2` is reachable; its tick returns and hands the
first frame `[10, 20]` to the hand as read. -/
theorem dispatched_commands_witness :
    (Reachable sim consts2 replay2 ∧ consts2.motorMinValue ≤ consts2.motorMaxValue) ∧
    ∃ t, Translator.convertData sim consts2 replay2 = some t ∧
      t.mHandInterface = sim.hand.moveMotors replay2.mHandInterface t.mConvertedDatas ∧
      t.mConvertedDatas.length = consts2.numberOfMotors ∧
      t.mConvertedDatas[0]? = some 10 ∧ t.mConvertedDatas[1]? = some 20 :=
  ⟨⟨Reachable.call (.startLoadAction "replay.txt") _ _ (Reachable.fresh _ _ _ _) rfl,
      by decide⟩, by
    obtain ⟨hret, h⟩ := (dispatched_commands sim consts2 replay2
      (Reachable.call (.startLoadAction "replay.txt") _ _ (Reachable.fresh _ _ _ _) rfl)
      (by decide)).2 (by decide) (by decide) (by decide)
    obtain ⟨t, ht⟩ := hret (by decide)
    obtain ⟨h1, _, h3, h4⟩ := h t ht
    exact ⟨t, ht, h1, h3, h4 0 (by decide), h4 1 (by decide)⟩⟩

/-- C9 fails as stated: `replayWild2` is reachable, its replay frame is `[300, -5]`, and the
tick hands exactly `[300, -5]` to `moveMotors`, although the motor range is `[0, 255]`. -/
theorem replay_frame_not_clamped :
    Reachable sim consts2 replayWild2 ∧
      (Translator.convertData sim consts2 replayWild2).map (fun t => t.mHandInterface.moved)
        = some [[300, -5]] ∧
      ¬ ((300 : Int) ≤ consts2.motorMaxValue) ∧ ¬ (consts2.motorMinValue ≤ (-5 : Int)) :=
  ⟨Reachable.call (.startLoadAction "replay.txt") _ _ (Reachable.fresh _ _ _ _) rfl,
    by decide, by decide, by decide⟩

end Hand
